import Mathlib

/-!
RISC-V 64 ABI lowering (`gen/abi/riscv64.cpp`).

A shallow embedding of the struct flattener `visitStructFields`, the test
`requireHardfloatRewrite`, the `HardfloatRewrite` strategy and the classifier
`RISCV64TargetABI::rewriteArgument`, followed by theorems about them.

Conventions of the embedding:
* `unsigned` values are natural numbers reduced modulo `2^32` at every addition;
* a null `Type *` is `none`; dereferencing it makes the enclosing function return `none`;
* a failed `assert` makes the enclosing function return `none`;
* storage is a map from byte offsets to bytes; the scratch buffer of an ABI-facing record is one
  region of bytes per element, and a copy that does not fit its element returns `none`.
-/

namespace RISCV64

/-! ## Type descriptors (frontend, queried read-only) -/

/-- Kind tags `TY` of the frontend types, as far as this file looks at them. -/
inductive TY where
  | Tstruct | Tenum | Tpointer | Tsarray | Tdelegate | Tvector | Tvoid | Tbool
  | Tint8 | Tint16 | Tint32 | Tint64 | Tfloat32 | Tfloat64 | Tfloat80
  | Tcomplex32 | Tcomplex64 | Tcomplex80
  deriving DecidableEq, Repr

/-- Modelled from the spec: the external type descriptor (`Type *`). A descriptor exposes its
kind tag, byte size, byte alignment, "is floating point", "is POD", "is aggregate" and, for
structs only, the ordered sequence of (field type, byte offset) pairs (`ts->sym->fields`).
`enum` is a named type over a member type, the only thing `toBasetype()` strips;
`pointer` is what the frontend's `pointerTo` builds (the source's `vaListType` uses
`pointerTo(Type::tvoid)` for `void*`). -/
inductive DType where
  | basic (ty : TY) (size alignment : Nat) (floating pod aggregate : Bool)
  | pointer (next : DType)
  | enum (memtype : DType)
  | struct (fields : List (DType × Nat)) (size alignment : Nat) (pod : Bool)

/-- The call `ty->toBasetype()`: strips enum wrappers. -/
def toBasetype : DType → DType
  | .enum memtype => toBasetype memtype
  | t => t

/-- The call `ty->isTypeStruct()` followed by `ts->sym->fields`: the field list of a struct type,
`none` (a null pointer) for any other type. -/
def isTypeStruct : DType → Option (List (DType × Nat))
  | .struct fields _ _ _ => some fields
  | _ => none

/-- The member `ty->ty`, the kind tag. -/
def DType.ty : DType → TY
  | .basic ty _ _ _ _ _ => ty
  | .pointer _ => .Tpointer
  | .enum _ => .Tenum
  | .struct _ _ _ _ => .Tstruct

/-- Modelled from the spec: the query `size(Type *)`, the byte size of a type. Pointers are
8 bytes on this 64-bit target; an enum has the size of its member type. -/
def size : DType → Nat
  | .basic _ sz _ _ _ _ => sz
  | .pointer _ => 8
  | .enum memtype => size memtype
  | .struct _ sz _ _ => sz

/-- Modelled from the spec: the query `DtoAlignment(Type *)`, the byte alignment of a type. -/
def DtoAlignment : DType → Nat
  | .basic _ _ al _ _ _ => al
  | .pointer _ => 8
  | .enum memtype => DtoAlignment memtype
  | .struct _ _ al _ => al

/-- Modelled from the spec: the query `Type::isFloating()`; pointers and structs are not
floating point, an enum is when its member type is. -/
def isFloating : DType → Bool
  | .basic _ _ _ fl _ _ => fl
  | .pointer _ => false
  | .enum memtype => isFloating memtype
  | .struct _ _ _ _ => false

/-- Modelled from the spec: the query `isPOD(Type *)`. -/
def isPOD : DType → Bool
  | .basic _ _ _ _ pod _ => pod
  | .pointer _ => true
  | .enum memtype => isPOD memtype
  | .struct _ _ _ pod => pod

/-- Modelled from the spec: the query `isAggregate(Type *)` of the base ABI class: "an aggregate
(not a plain scalar)". Structs are aggregates, pointers are not, other types carry the answer in
their descriptor. -/
def isAggregate : DType → Bool
  | .basic _ _ _ _ _ ag => ag
  | .pointer _ => false
  | .enum memtype => isAggregate memtype
  | .struct _ _ _ _ => true

/-- The frontend's `pointerTo(Type *)`: the pointer type to the given type. -/
def pointerTo (t : DType) : DType := .pointer t

/-- The global `Type::tfloat32`. -/
def tfloat32 : DType := .basic .Tfloat32 4 4 true true false

/-- The global `Type::tfloat64`. -/
def tfloat64 : DType := .basic .Tfloat64 8 8 true true false

/-- The global `Type::tint64`. -/
def tint64 : DType := .basic .Tint64 8 8 false true false

/-- The global `Type::tint32`. -/
def tint32 : DType := .basic .Tint32 4 4 false true false

/-- The global `Type::tvoid`. -/
def tvoid : DType := .basic .Tvoid 1 1 false true false

/-- The method `RISCV64TargetABI::vaListType()`: `va_list` is `void*`. -/
def vaListType : DType := pointerTo tvoid

/-- Reduction of a natural number to the range of `unsigned`. -/
def u32 (n : Nat) : Nat := n % 2 ^ 32

/-- The cast `(unsigned)n` of an `int`. -/
def toUnsigned (n : Int) : Nat := (n % 2 ^ 32).toNat

/-! ## The field flattener -/

/-- The struct `FlattenedFields::FlattenedField`: `ty` defaults to `nullptr`, `offset` to 0. -/
structure FlattenedField where
  ty : Option DType := none
  offset : Nat := 0

/-- The struct `FlattenedFields`: a two-element array and an `int` length, `-1` standing for
"no need to rewrite". -/
structure FlattenedFields where
  fields : List FlattenedField := [{}, {}]
  length : Int := 0

/-- The read `r.fields[i]`. -/
def FlattenedFields.get (r : FlattenedFields) (i : Nat) : FlattenedField :=
  r.fields.getD i {}

/-- The inner loop `for (i = 0; i < (unsigned)sub.length; ++i) result.fields[result.length++] =
sub.fields[i];` with `n` iterations left, the next one reading index `i`. -/
def copyFields (sub : FlattenedFields) : Nat → Nat → FlattenedFields → FlattenedFields
  | 0, _, result => result
  | n + 1, i, result =>
    copyFields sub n (i + 1)
      { fields := result.fields.set result.length.toNat (sub.get i),
        length := result.length + 1 }

/-- The `switch (ty->toBasetype()->ty)` of `visitStructFields`, reached for a base type `ty`
that is not a struct. -/
def visitScalar (ty : DType) (baseOffset : Nat) : FlattenedFields :=
  match ty.ty with
  | .Tcomplex32 =>
    { fields := [{ ty := some (pointerTo tfloat32), offset := baseOffset },
                 { ty := some (pointerTo tfloat32), offset := u32 (baseOffset + 4) }],
      length := 2 }
  | .Tcomplex64 =>
    { fields := [{ ty := some (pointerTo tfloat64), offset := baseOffset },
                 { ty := some (pointerTo tfloat64), offset := u32 (baseOffset + 8) }],
      length := 2 }
  | _ =>
    if size ty > 8 then { length := -1 }
    else { fields := [{ ty := some ty, offset := baseOffset }, {}], length := 1 }

mutual
/-- The function `visitStructFields(ty, baseOffset)`. The enum case follows `toBasetype()`
(every use of `ty` in the source is `ty->toBasetype()`). -/
def visitStructFields : DType → Nat → FlattenedFields
  | .struct fields _ _ _, baseOffset => visitFields fields baseOffset {}
  | .enum memtype, baseOffset => visitStructFields memtype baseOffset
  | .pointer next, baseOffset => visitScalar (.pointer next) baseOffset
  | .basic ty sz al fl pod ag, baseOffset => visitScalar (.basic ty sz al fl pod ag) baseOffset
/-- The loop `for (auto fi : ts->sym->fields)` of `visitStructFields` on the fields still to be
visited, `result` being the accumulator. -/
def visitFields : List (DType × Nat) → Nat → FlattenedFields → FlattenedFields
  | [], _, result => result
  | (fiType, fiOffset) :: rest, baseOffset, result =>
    let sub := visitStructFields fiType (u32 (baseOffset + fiOffset))
    if sub.length = -1 ∨ result.length + sub.length > 2 then
      { result with length := -1 }
    else
      visitFields rest baseOffset (copyFields sub (toUnsigned sub.length) 0 result)
end

/-- The dereference `f.ty->isFloating()`. -/
def FlattenedField.isFloating (f : FlattenedField) : Option Bool :=
  f.ty.map RISCV64.isFloating

/-- The dereference `size(f.ty)`. -/
def FlattenedField.size (f : FlattenedField) : Option Nat :=
  f.ty.map RISCV64.size

/-- The function `requireHardfloatRewrite(ty)`. -/
def requireHardfloatRewrite (ty : DType) : Option Bool :=
  if (isTypeStruct (toBasetype ty)).isNone then some false
  else
    let result := visitStructFields ty 0
    if result.length ≤ 0 then some false
    else if result.length = 1 then (result.get 0).isFloating
    else do
      let f0 ← (result.get 0).isFloating
      if f0 then some true else (result.get 1).isFloating

/-! ## LLVM-side types and the Hardfloat rewrite -/

/-- The LLVM types this file builds: `DtoType(t)`, `LLIntegerType::get(ctx, numBits)`, a pointer,
and `LLStructType::get(ctx, elements, isPacked)`. -/
inductive LLType where
  | DtoType (t : DType)
  | LLIntegerType (numBits : Nat)
  | LLPointerType
  | LLStructType (elements : List LLType) (isPacked : Bool)

/-- The loop body of `HardfloatRewrite::type`: `flat.fields[i].ty->isFloating() ?
DtoType(flat.fields[i].ty) : LLIntegerType::get(ctx, size(flat.fields[i].ty) * 8)`. -/
def HardfloatRewrite.elementType (f : FlattenedField) : Option LLType :=
  match f.ty with
  | none => none
  | some ty => some (if isFloating ty then .DtoType ty else .LLIntegerType (size ty * 8))

/-- The method `HardfloatRewrite::type(Type *ty, const FlattenedFields &flat)`. -/
def HardfloatRewrite.typeFlat (_ty : DType) (flat : FlattenedFields) : Option LLType :=
  if flat.length = 1 then
    match (flat.get 0).ty with
    | none => none
    | some t0 => some (.LLStructType [.DtoType t0] false)
  else if flat.length = 2 then
    match HardfloatRewrite.elementType (flat.get 0), HardfloatRewrite.elementType (flat.get 1) with
    | some t0, some t1 => some (.LLStructType [t0, t1] false)
    | _, _ => none
  else none

/-- The method `HardfloatRewrite::type(Type *ty)`. -/
def HardfloatRewrite.type (ty : DType) : Option LLType :=
  HardfloatRewrite.typeFlat ty (visitStructFields ty 0)

/-- The method `Integer2Rewrite::type(Type *t)`: the record of two `int64`. -/
def Integer2Rewrite.type (_t : DType) : LLType :=
  .LLStructType [.DtoType tint64, .DtoType tint64] false

/-- A byte of memory. -/
abbrev Byte := Fin 256

/-- A memory image: the bytes found at each offset from the start of a storage. -/
abbrev Memory := Nat → Byte

/-- Modelled from the spec: the number of bytes a load or store of an element of an ABI-facing
record moves ("that slot's native machine type", "an integer type sized exactly to the slot's
byte size x 8 bits"). A nested literal record is never an element here and gets no room. -/
def elementStoreSize : LLType → Nat
  | .DtoType t => size t
  | .LLIntegerType numBits => (numBits + 7) / 8
  | .LLPointerType => 8
  | .LLStructType _ _ => 0

/-- The regions of the elements of a record, element `i` holding the indeterminate bytes
`init i k`. -/
def allocaElements (init : Nat → Nat → Byte) : List LLType → Nat → List (List Byte)
  | [], _ => []
  | e :: es, i => (List.range (elementStoreSize e)).map (init i) :: allocaElements init es (i + 1)

/-- Modelled from the spec: `DtoRawAlloca(asType, ...)`, "allocate scratch storage shaped as the
ABI-facing type": one region per element, holding indeterminate bytes `init i k`. -/
def DtoRawAllocaShape (asType : LLType) (init : Nat → Nat → Byte) : List (List Byte) :=
  match asType with
  | .LLStructType elements _ => allocaElements init elements 0
  | _ => []

/-- The bytes of a memory image on the range `[offset, offset + n)`. -/
def slotBytes (x : Memory) (offset n : Nat) : List Byte :=
  (List.range n).map fun k => x (offset + k)

/-- A memory image overwritten on the range `[offset, offset + n)` by the bytes of `region`. -/
def overwrite (ret : Memory) (offset n : Nat) (region : List Byte) : Memory :=
  fun a => if offset ≤ a ∧ a < offset + n then region.getD (a - offset) 0 else ret a

/-- Modelled from the spec: `DtoMemCpy(DtoGEP(asType, buffer, 0, i), DtoGEP1(i8, address, offset),
n)`, "byte-copy exactly that slot's size from `address + slot.offset` into the corresponding
scratch element". The copy fails when element `i` does not exist or has fewer than `n` bytes. -/
def memCpyToElement (buffer : List (List Byte)) (i : Nat) (address : Memory) (offset n : Nat) :
    Option (List (List Byte)) :=
  match buffer.get? i with
  | none => none
  | some region =>
    if n ≤ region.length then
      some (buffer.set i (slotBytes address offset n ++ region.drop n))
    else none

/-- Modelled from the spec: `DtoMemCpy(DtoGEP1(i8, ret, offset), DtoGEP(asType, buffer, 0, i), n)`,
"byte-copy from the scratch element back to `result + slot.offset`". The copy fails when element
`i` does not exist or has fewer than `n` bytes. -/
def memCpyFromElement (ret : Memory) (offset : Nat) (buffer : List (List Byte)) (i n : Nat) :
    Option Memory :=
  match buffer.get? i with
  | none => none
  | some region =>
    if n ≤ region.length then
      some (overwrite ret offset n region)
    else none

/-- The value handed to `put`: its type, whether it is an lvalue, and the memory image found at
its address (`DtoLVal(dv)`). -/
structure DValue where
  type : DType
  isLVal : Bool
  image : Memory

/-- The copy loop of `HardfloatRewrite::put` with `n` iterations left, the next one at index
`i`. -/
def HardfloatRewrite.putLoop (flat : FlattenedFields) (address : Memory) :
    Nat → Nat → List (List Byte) → Option (List (List Byte))
  | 0, _, buffer => some buffer
  | n + 1, i, buffer =>
    match (flat.get i).size with
    | none => none
    | some sz =>
      match memCpyToElement buffer i address (flat.get i).offset sz with
      | none => none
      | some buffer => HardfloatRewrite.putLoop flat address n (i + 1) buffer

/-- The method `HardfloatRewrite::put`: value to ABI shape. The result of the final `DtoLoad` is
the list of the bytes of each element of the ABI-facing record. `init` is the indeterminate
content of the fresh scratch buffer. -/
def HardfloatRewrite.put (dv : DValue) (init : Nat → Nat → Byte) : Option (List (List Byte)) :=
  let flat := visitStructFields dv.type 0
  match HardfloatRewrite.typeFlat dv.type flat with
  | none => none
  | some asType =>
    if dv.isLVal then
      HardfloatRewrite.putLoop flat dv.image (toUnsigned flat.length) 0
        (DtoRawAllocaShape asType init)
    else none

/-- The copy loop of `HardfloatRewrite::getLVal` with `n` iterations left, the next one at index
`i`. -/
def HardfloatRewrite.getLValLoop (flat : FlattenedFields) (buffer : List (List Byte)) :
    Nat → Nat → Memory → Option Memory
  | 0, _, ret => some ret
  | n + 1, i, ret =>
    match (flat.get i).size with
    | none => none
    | some sz =>
      match memCpyFromElement ret (flat.get i).offset buffer i sz with
      | none => none
      | some ret => HardfloatRewrite.getLValLoop flat buffer n (i + 1) ret

/-- The method `HardfloatRewrite::getLVal`: ABI shape to value. `v` is dumped to a scratch buffer
(`DtoAllocaDump`), `init` is the indeterminate content of the fresh storage of the original
type; the result is the memory image of that storage. -/
def HardfloatRewrite.getLVal (dty : DType) (v : List (List Byte)) (init : Memory) :
    Option Memory :=
  let flat := visitStructFields dty 0
  match HardfloatRewrite.typeFlat dty flat with
  | none => none
  | some _asType => HardfloatRewrite.getLValLoop flat v (toUnsigned flat.length) 0 init

/-! ## The classifier -/

/-- The rewrite objects an argument can point to: the four members of `RISCV64TargetABI` and
whatever else the base class may attach. -/
inductive ABIRewrite where
  | hardfloatRewrite
  | indirectByvalRewrite
  | integer2Rewrite
  | integerRewrite
  | other (id : Nat)
  deriving DecidableEq, Repr

/-- The parameter descriptor `IrFuncTyArg`: the original type, the byref flag, the attached rewrite
(null until one is attached) and the ABI-facing type `ltype`. -/
structure IrFuncTyArg where
  type : DType
  byref : Bool
  rewrite : Option ABIRewrite
  ltype : LLType

/-- Modelled from the spec: the collaborators of `RISCV64TargetABI` that live outside this file.
`rewriteArgument` is the base logic `TargetABI::rewriteArgument`; `integerRewriteType` and
`indirectByvalRewriteType` are the ABI-facing types of the two reused strategies; `isObsolete`
is the test behind `applyToIfNotObsolete`. -/
structure TargetABI where
  rewriteArgument : IrFuncTyArg → IrFuncTyArg
  integerRewriteType : DType → LLType
  indirectByvalRewriteType : DType → LLType
  isObsolete : ABIRewrite → IrFuncTyArg → LLType → Bool

/-- Modelled from the spec: `ABIRewrite::applyTo(arg)`, which "records the ABI-facing type and
attaches the pair of inverse transformations to the parameter". -/
def ABIRewrite.applyTo (rewrite : ABIRewrite) (finalLType : LLType) (arg : IrFuncTyArg) :
    IrFuncTyArg :=
  { arg with rewrite := some rewrite, ltype := finalLType }

/-- Modelled from the spec: `BaseBitcastABIRewrite::applyToIfNotObsolete(arg)`: `applyTo` unless
the collaborator finds the rewrite obsolete for this argument, which is then left untouched. -/
def ABIRewrite.applyToIfNotObsolete (abi : TargetABI) (rewrite : ABIRewrite)
    (finalLType : LLType) (arg : IrFuncTyArg) : IrFuncTyArg :=
  if abi.isObsolete rewrite arg finalLType then arg else rewrite.applyTo finalLType arg

/-- The part of `RISCV64TargetABI::rewriteArgument` after the Hardfloat test (source lines
205-219): 80-bit complex, then small aggregates. -/
def rewriteArgumentTail (abi : TargetABI) (arg : IrFuncTyArg) : IrFuncTyArg :=
  let ty := toBasetype arg.type
  if ty.ty = .Tcomplex80 then
    ABIRewrite.indirectByvalRewrite.applyTo (abi.indirectByvalRewriteType arg.type) arg
  else if isAggregate ty && size ty != 0 && decide (size ty ≤ 16) then
    if decide (size ty > 8) && decide (DtoAlignment ty < 16) then
      ABIRewrite.integer2Rewrite.applyToIfNotObsolete abi (Integer2Rewrite.type arg.type) arg
    else
      ABIRewrite.integerRewrite.applyToIfNotObsolete abi (abi.integerRewriteType arg.type) arg
  else arg

/-- The method `RISCV64TargetABI::rewriteArgument(fty, arg, isVararg)`; the result is the
argument after the call. -/
def rewriteArgument (abi : TargetABI) (arg : IrFuncTyArg) (isVararg : Bool) :
    Option IrFuncTyArg :=
  let arg := abi.rewriteArgument arg
  if arg.rewrite.isSome then some arg
  else
    match (if isVararg then some false else requireHardfloatRewrite arg.type) with
    | none => none
    | some true =>
      match HardfloatRewrite.type arg.type with
      | none => none
      | some finalLType => some (ABIRewrite.hardfloatRewrite.applyTo finalLType arg)
    | some false => some (rewriteArgumentTail abi arg)

/-- The method `RISCV64TargetABI::rewriteVarargs(fty, args)`; the result is the list of the
arguments after the call. -/
def rewriteVarargs (abi : TargetABI) : List IrFuncTyArg → Option (List IrFuncTyArg)
  | [] => some []
  | arg :: args =>
    match (if arg.byref then some arg else rewriteArgument abi arg true) with
    | none => none
    | some arg =>
      match rewriteVarargs abi args with
      | none => none
      | some args => some (arg :: args)

/-- The function type `TypeFunction`, as far as this file looks at it: `next` is the return
type. -/
structure TypeFunction where
  next : DType

/-- The method `RISCV64TargetABI::returnInArg(tf, bool)`. -/
def returnInArg (tf : TypeFunction) (_needsThis : Bool) : Bool :=
  let rt := toBasetype tf.next
  !isPOD rt || decide (size rt > 16)

/-- The method `RISCV64TargetABI::passByVal(tf, t)`. -/
def passByVal (_tf : TypeFunction) (t : DType) : Bool :=
  let t := toBasetype t
  if t.ty = .Tcomplex80 then false
  else isPOD t && decide (size t > 16)

/-! ## The field flattener with every array access checked -/

/-- The write `fields[index] = value` into the two-element array `fields`, `none` when `index`
is not 0 or 1. -/
def checkedWrite (fields : List FlattenedField) (index : Int) (value : FlattenedField) :
    Option (List FlattenedField) :=
  if 0 ≤ index ∧ index < 2 then some (fields.set index.toNat value) else none

/-- The read `sub.fields[i]` from the two-element array, `none` when `i` is not 0 or 1. -/
def checkedRead (sub : FlattenedFields) (i : Nat) : Option FlattenedField :=
  if i < 2 then some (sub.get i) else none

/-- The inner loop of `visitStructFields`, as `copyFields`, with the read `sub.fields[i]` and the
write `result.fields[result.length++]` checked. -/
def copyFieldsChecked (sub : FlattenedFields) :
    Nat → Nat → FlattenedFields → Option FlattenedFields
  | 0, _, result => some result
  | n + 1, i, result =>
    match checkedRead sub i with
    | none => none
    | some value =>
      match checkedWrite result.fields result.length value with
      | none => none
      | some fields =>
        copyFieldsChecked sub n (i + 1) { fields := fields, length := result.length + 1 }

mutual
/-- The function `visitStructFields(ty, baseOffset)` with every array access checked: `none`
when an index falls outside the two-element array or when the loop bound `(unsigned)sub.length`
is taken of a negative length. -/
def visitStructFieldsChecked : DType → Nat → Option FlattenedFields
  | .struct fields _ _ _, baseOffset => visitFieldsChecked fields baseOffset {}
  | .enum memtype, baseOffset => visitStructFieldsChecked memtype baseOffset
  | .pointer next, baseOffset => some (visitScalar (.pointer next) baseOffset)
  | .basic ty sz al fl pod ag, baseOffset =>
    some (visitScalar (.basic ty sz al fl pod ag) baseOffset)
/-- The loop over the fields, as `visitFields`, with every array access checked. -/
def visitFieldsChecked : List (DType × Nat) → Nat → FlattenedFields → Option FlattenedFields
  | [], _, result => some result
  | (fiType, fiOffset) :: rest, baseOffset, result =>
    match visitStructFieldsChecked fiType (u32 (baseOffset + fiOffset)) with
    | none => none
    | some sub =>
      if sub.length = -1 ∨ result.length + sub.length > 2 then
        some { result with length := -1 }
      else if sub.length < 0 then none
      else
        match copyFieldsChecked sub (toUnsigned sub.length) 0 result with
        | none => none
        | some result => visitFieldsChecked rest baseOffset result
end

/-! ## Predicates and measures used to state the properties -/

/-- A flattening result that holds `length` slots, `0 ≤ length ≤ 2`, each with a non-null type of
at most 8 bytes, in a two-element array. -/
def FlattenedFields.Slots (r : FlattenedFields) : Prop :=
  ∃ a b, r.fields = [a, b] ∧
    (r.length = 0 ∨ (r.length = 1 ∧ ∃ t, a.ty = some t ∧ size t ≤ 8) ∨
      (r.length = 2 ∧ ∃ t u, a.ty = some t ∧ b.ty = some u ∧ size t ≤ 8 ∧ size u ≤ 8))

/-- The condition of classifier step 2 as the specification words it: the base type is a struct and
flattening yields length 1 or 2 with at least one floating-point slot. -/
def HardfloatCondition (ty : DType) : Prop :=
  (isTypeStruct (toBasetype ty)).isSome = true ∧
    ((visitStructFields ty 0).length = 1 ∨ (visitStructFields ty 0).length = 2) ∧
    ∃ (i : Nat) (t : DType), (i : Int) < (visitStructFields ty 0).length ∧
      ((visitStructFields ty 0).get i).ty = some t ∧ isFloating t = true

mutual
/-- Every field of the type, at every nesting level, has a size of at most 8 bytes. -/
def fieldsAtMost8 : DType → Bool
  | .struct fields _ _ _ => fieldsAtMost8List fields
  | .enum memtype => fieldsAtMost8 memtype
  | .pointer _ => true
  | .basic _ _ _ _ _ _ => true
/-- The fields of the list, and their own fields at every nesting level, have a size of at most
8 bytes. -/
def fieldsAtMost8List : List (DType × Nat) → Bool
  | [] => true
  | (fiType, _) :: rest => decide (size fiType ≤ 8) && fieldsAtMost8 fiType && fieldsAtMost8List rest
end

mutual
/-- The number of leaves of a type: one per non-struct field at any nesting depth, two for a
32-bit or 64-bit complex. -/
def leafCount : DType → Nat
  | .struct fields _ _ _ => leafCountList fields
  | .enum memtype => leafCount memtype
  | .pointer _ => 1
  | .basic ty _ _ _ _ _ => if ty = .Tcomplex32 ∨ ty = .Tcomplex64 then 2 else 1
/-- The number of leaves of a field list. -/
def leafCountList : List (DType × Nat) → Nat
  | [] => 0
  | (fiType, _) :: rest => leafCount fiType + leafCountList rest
end

mutual
/-- Every leaf of the type that is not a 32-bit or 64-bit complex has a size of at most 8 bytes. -/
def leavesAtMost8 : DType → Bool
  | .struct fields _ _ _ => leavesAtMost8List fields
  | .enum memtype => leavesAtMost8 memtype
  | .pointer _ => true
  | .basic ty sz _ _ _ _ => decide (ty = .Tcomplex32 ∨ ty = .Tcomplex64) || decide (sz ≤ 8)
/-- The same for a field list. -/
def leavesAtMost8List : List (DType × Nat) → Bool
  | [] => true
  | (fiType, _) :: rest => leavesAtMost8 fiType && leavesAtMost8List rest
end

/-- The value `v` is an ABI-shape value of the record type `asType`: one element value per
element of the record, with as many bytes as the element stores. -/
def isShapeOf (v : List (List Byte)) : LLType → Prop
  | .LLStructType elements _ =>
    List.Forall₂ (fun region e => region.length = elementStoreSize e) v elements
  | _ => False

/-- The byte ranges of the slots of a flattening result do not overlap. -/
def slotsDisjoint (flat : FlattenedFields) : Prop :=
  ∀ (i j : Nat) (t u : DType), i < j → (j : Int) < flat.length →
    (flat.get i).ty = some t → (flat.get j).ty = some u →
    (flat.get i).offset + size t ≤ (flat.get j).offset ∨
      (flat.get j).offset + size u ≤ (flat.get i).offset

/-- What `rewriteVarargs` does to one descriptor: a byref argument is untouched; a by-value
argument carries what the base logic attached, if anything, and is otherwise classified by the
steps after the Hardfloat test, which never attach the Hardfloat rewrite. -/
def varargOutcome (abi : TargetABI) (arg out : IrFuncTyArg) : Prop :=
  (arg.byref = true → out = arg) ∧
  (arg.byref = false → (abi.rewriteArgument arg).rewrite ≠ none → out = abi.rewriteArgument arg) ∧
  (arg.byref = false → (abi.rewriteArgument arg).rewrite = none →
    out = rewriteArgumentTail abi (abi.rewriteArgument arg) ∧
    out.rewrite ≠ some ABIRewrite.hardfloatRewrite)

/-- The outcome of a flattening: unsupported, or the list of its slots. -/
inductive Outcome where
  | unsupported
  | slots (leaves : List FlattenedField)

/-- The outcome a `FlattenedFields` value stands for: unsupported when the length is the
sentinel -1, otherwise the first `length` entries of the array. -/
def outcome (r : FlattenedFields) : Outcome :=
  if r.length = -1 then .unsupported else .slots (r.fields.take r.length.toNat)

mutual
/-- The reference collection of leaves: in field-declaration order and descending through
nested structs, one leaf per non-struct field, two for a 32-bit or 64-bit complex (typed
`half32` and `half64`), each at the offset of the type plus the field offsets along the path,
added as `unsigned`. -/
def referenceLeaves (half32 half64 : DType) : DType → Nat → List FlattenedField
  | .struct fields _ _ _, offset => referenceLeavesList half32 half64 fields offset
  | .enum memtype, offset => referenceLeaves half32 half64 memtype offset
  | .pointer next, offset => [{ ty := some (.pointer next), offset := offset }]
  | .basic ty sz al fl pod ag, offset =>
    if ty = .Tcomplex32 then
      [{ ty := some half32, offset := offset }, { ty := some half32, offset := u32 (offset + 4) }]
    else if ty = .Tcomplex64 then
      [{ ty := some half64, offset := offset }, { ty := some half64, offset := u32 (offset + 8) }]
    else [{ ty := some (.basic ty sz al fl pod ag), offset := offset }]
/-- The reference collection of the leaves of a field list of a struct placed at `offset`. -/
def referenceLeavesList (half32 half64 : DType) : List (DType × Nat) → Nat → List FlattenedField
  | [], _ => []
  | (fiType, fiOffset) :: rest, offset =>
    referenceLeaves half32 half64 fiType (u32 (offset + fiOffset)) ++
      referenceLeavesList half32 half64 rest offset
end

/-- The reference flattening: unsupported if some non-complex leaf is larger than 8 bytes or
there are more than 2 leaves, otherwise exactly the leaves. -/
def referenceFlatten (half32 half64 : DType) (ty : DType) (baseOffset : Nat) : Outcome :=
  if leavesAtMost8 ty = false ∨ (referenceLeaves half32 half64 ty baseOffset).length > 2 then
    .unsupported
  else .slots (referenceLeaves half32 half64 ty baseOffset)

/-- The array and length of `r` hold exactly the slots `leaves`, at most 2, the unused entries
being default-initialised. -/
def FlattenedFields.Holds (r : FlattenedFields) (leaves : List FlattenedField) : Prop :=
  r.length = leaves.length ∧ leaves.length ≤ 2 ∧
    r.fields = leaves ++ List.replicate (2 - leaves.length) ({} : FlattenedField)

mutual
/-- The layout of the type is well formed: every field, at every nesting level, lies within its
enclosing struct (field offset + field size ≤ struct size). -/
def wellFormed : DType → Bool
  | .struct fields sz _ _ => wellFormedFields fields sz
  | .enum memtype => wellFormed memtype
  | .pointer _ => true
  | .basic _ _ _ _ _ _ => true
/-- The fields of the list lie within a struct of `structSize` bytes and are well formed
themselves. -/
def wellFormedFields : List (DType × Nat) → Nat → Bool
  | [], _ => true
  | (fiType, fiOffset) :: rest, structSize =>
    decide (fiOffset + size fiType ≤ structSize) && wellFormed fiType &&
      wellFormedFields rest structSize
end

/-- The slot has a type and its byte range ends at or before `bound`. -/
def FlattenedField.within (f : FlattenedField) (bound : Nat) : Prop :=
  ∃ t, f.ty = some t ∧ f.offset + RISCV64.size t ≤ bound

/-- The slot has a type that is not floating point. -/
def FlattenedField.notFloating (f : FlattenedField) : Bool :=
  match f.ty with
  | some t => !RISCV64.isFloating t
  | none => false

/-- Either every leaf of the list ends at or before `bound`, or at least two of the leaves are
not floating point. -/
def boundedOrPlain (leaves : List FlattenedField) (bound : Nat) : Prop :=
  (∀ f ∈ leaves, f.within bound) ∨ 2 ≤ (leaves.filter FlattenedField.notFloating).length

/-! ## Example inputs -/

/-- The type `struct { float a; float b; }`: fields at offsets 0 and 4, size 8, alignment 4. -/
def structFloat2 : DType := .struct [(tfloat32, 0), (tfloat32, 4)] 8 4 true

/-- The type `struct { int a; int b; int c; }`: fields at offsets 0, 4 and 8, size 12. -/
def structInt3 : DType := .struct [(tint32, 0), (tint32, 4), (tint32, 8)] 12 4 true

/-- The type `struct { long a; long b; }`: fields at offsets 0 and 8, size 16, alignment 8. -/
def structLong2 : DType := .struct [(tint64, 0), (tint64, 8)] 16 8 true

/-- The type `union { float f; int i; }`: a struct type for the frontend, both fields at
offset 0, size 4. -/
def unionFloatInt : DType := .struct [(tfloat32, 0), (tint32, 0)] 4 4 true

/-- The type `cfloat`, the 32-bit complex: 8 bytes, floating, aggregate for the ABI. -/
def tcomplex32 : DType := .basic .Tcomplex32 8 4 true true true

/-- The type `cdouble`, the 64-bit complex: 16 bytes, alignment 8, floating, aggregate for the
ABI. -/
def tcomplex64 : DType := .basic .Tcomplex64 16 8 true true true

/-- The type `creal`, the 80-bit complex: 32 bytes, alignment 16 on this target. -/
def tcomplex80 : DType := .basic .Tcomplex80 32 16 true true true

/-- Collaborators for the examples: a base logic that assigns no rewrite, an integer of
`size * 8` bits for the Integer rewrite, a pointer for Indirect-By-Value, nothing obsolete. -/
def exampleABI : TargetABI :=
  { rewriteArgument := fun arg => arg,
    integerRewriteType := fun t => .LLIntegerType (size t * 8),
    indirectByvalRewriteType := fun _ => .LLPointerType,
    isObsolete := fun _ _ _ => false }

/-- A fresh by-value descriptor of the given type: no rewrite yet, `ltype` the native type. -/
def freshArg (ty : DType) : IrFuncTyArg :=
  { type := ty, byref := false, rewrite := none, ltype := .DtoType ty }

/-- The ABI-shape value with elements `01 02 03 04` and `05 06 07 08`. -/
def exampleValue : List (List Byte) := [[1, 2, 3, 4], [5, 6, 7, 8]]

/-- A struct with a destructor, `struct { long a; ~this(); }`: 8 bytes, not POD. -/
def structNonPOD : DType := .struct [(tint64, 0)] 8 8 false

/-- The type `struct { align(32) float f; }`: one field at offset 0, size 32, alignment 32. -/
def structAlignedFloat : DType := .struct [(tfloat32, 0)] 32 32 true

/-- A function type returning `void`. -/
def voidFunction : TypeFunction := { next := tvoid }

/-- The type `struct { struct {} e; float f; }`: an empty struct (size 1, no fields) at offset 0
and a float at offset 4. -/
def structEmptyFloat : DType := .struct [(.struct [] 1 1 true, 0), (tfloat32, 4)] 8 4 true

/-- The type `struct { double d; float f; }`: fields at offsets 0 and 8, size 16, alignment 8. -/
def structDoubleFloat : DType := .struct [(tfloat64, 0), (tfloat32, 8)] 16 8 true

/-- Collaborators whose base logic attaches a rewrite of its own (`other 0`, ABI-facing type a
pointer) to every argument. -/
def exampleBaseABI : TargetABI :=
  { rewriteArgument := fun arg => { arg with rewrite := some (.other 0), ltype := .LLPointerType },
    integerRewriteType := fun t => .LLIntegerType (size t * 8),
    indirectByvalRewriteType := fun _ => .LLPointerType,
    isObsolete := fun _ _ _ => false }

/-! ## Facts about the flattener and the rewrites -/

theorem visitStructFields_toBasetype : ∀ (ty : DType) (baseOffset : Nat),
    visitStructFields ty baseOffset =
      match isTypeStruct (toBasetype ty) with
      | some fields => visitFields fields baseOffset {}
      | none => visitScalar (toBasetype ty) baseOffset
  | .struct fields _ _ _, baseOffset => by simp [visitStructFields, toBasetype, isTypeStruct]
  | .enum memtype, baseOffset => by
    rw [visitStructFields, toBasetype]
    exact visitStructFields_toBasetype memtype baseOffset
  | .pointer next, baseOffset => by simp [visitStructFields, toBasetype, isTypeStruct]
  | .basic ty sz al fl pod ag, baseOffset => by
    simp [visitStructFields, toBasetype, isTypeStruct]

theorem slots_empty : FlattenedFields.Slots {} :=
  ⟨{}, {}, rfl, Or.inl rfl⟩

theorem visitScalar_slots (ty : DType) (baseOffset : Nat) :
    (visitScalar ty baseOffset).length = -1 ∨ (visitScalar ty baseOffset).Slots := by
  unfold visitScalar
  split
  · exact Or.inr ⟨_, _, rfl, Or.inr (Or.inr ⟨rfl, _, _, rfl, rfl, by simp [pointerTo, size], by simp [pointerTo, size]⟩)⟩
  · exact Or.inr ⟨_, _, rfl, Or.inr (Or.inr ⟨rfl, _, _, rfl, rfl, by simp [pointerTo, size], by simp [pointerTo, size]⟩)⟩
  · split
    · exact Or.inl rfl
    · rename_i h
      exact Or.inr ⟨_, _, rfl, Or.inr (Or.inl ⟨rfl, _, rfl, by omega⟩)⟩

theorem copyFields_slots (sub result : FlattenedFields) (hs : sub.Slots) (hr : result.Slots)
    (hle : result.length + sub.length ≤ 2) :
    (copyFields sub (toUnsigned sub.length) 0 result).Slots ∧
      (copyFields sub (toUnsigned sub.length) 0 result).length = result.length + sub.length := by
  obtain ⟨a, b, hf, hl⟩ := hs
  obtain ⟨c, d, hg, hm⟩ := hr
  rcases sub with ⟨sf, sl⟩
  rcases result with ⟨rf, rl⟩
  simp only at hf hl hg hm hle
  subst hf hg
  rcases hl with rfl | ⟨rfl, t, ht, hts⟩ | ⟨rfl, t, u, ht, hu, hts, hus⟩
  · simp [toUnsigned, copyFields]
    exact ⟨c, d, rfl, hm⟩
  · rcases hm with rfl | ⟨rfl, t2, ht2, hts2⟩ | ⟨rfl, _⟩
    · simp [toUnsigned, copyFields, FlattenedFields.get]
      exact ⟨a, d, rfl, Or.inr (Or.inl ⟨rfl, t, ht, hts⟩)⟩
    · simp [toUnsigned, copyFields, FlattenedFields.get]
      exact ⟨c, a, rfl, Or.inr (Or.inr ⟨rfl, t2, t, ht2, ht, hts2, hts⟩)⟩
    · omega
  · rcases hm with rfl | ⟨rfl, _⟩ | ⟨rfl, _⟩
    · simp [toUnsigned, copyFields, FlattenedFields.get]
      exact ⟨a, b, rfl, Or.inr (Or.inr ⟨rfl, t, u, ht, hu, hts, hus⟩)⟩
    · omega
    · omega

mutual
theorem visitStructFields_slots : ∀ (ty : DType) (baseOffset : Nat),
    (visitStructFields ty baseOffset).length = -1 ∨ (visitStructFields ty baseOffset).Slots
  | .struct fields _ _ _, baseOffset => by
    rw [visitStructFields]
    exact visitFields_slots fields baseOffset {} slots_empty
  | .enum memtype, baseOffset => by
    rw [visitStructFields]
    exact visitStructFields_slots memtype baseOffset
  | .pointer next, baseOffset => by
    rw [visitStructFields]
    exact visitScalar_slots _ _
  | .basic ty sz al fl pod ag, baseOffset => by
    rw [visitStructFields]
    exact visitScalar_slots _ _
theorem visitFields_slots : ∀ (fields : List (DType × Nat)) (baseOffset : Nat)
    (result : FlattenedFields), result.Slots →
    (visitFields fields baseOffset result).length = -1 ∨ (visitFields fields baseOffset result).Slots
  | [], _, result, h => by
    rw [visitFields]
    exact Or.inr h
  | (fiType, fiOffset) :: rest, baseOffset, result, h => by
    rw [visitFields]
    split
    · exact Or.inl rfl
    · rename_i hc
      have hsub := visitStructFields_slots fiType (u32 (baseOffset + fiOffset))
      rcases hsub with hsub | hsub
      · exact absurd (Or.inl hsub) hc
      · have hle : result.length + (visitStructFields fiType (u32 (baseOffset + fiOffset))).length ≤ 2 := by
          by_contra hgt
          exact hc (Or.inr (by omega))
        exact visitFields_slots rest baseOffset _ (copyFields_slots _ _ hsub h hle).1
end

theorem requireHardfloatRewrite_spec (ty : DType) :
    ∃ b, requireHardfloatRewrite ty = some b ∧ (b = true ↔ HardfloatCondition ty) := by
  unfold requireHardfloatRewrite HardfloatCondition
  by_cases hs : (isTypeStruct (toBasetype ty)).isNone = true
  · refine ⟨false, by simp [hs], ?_⟩
    have : (isTypeStruct (toBasetype ty)).isSome = false := by
      cases h : isTypeStruct (toBasetype ty) <;> simp_all
    simp [this]
  · have hsome : (isTypeStruct (toBasetype ty)).isSome = true := by
      cases h : isTypeStruct (toBasetype ty) <;> simp_all
    simp only [hs, hsome, true_and]
    rcases visitStructFields_slots ty 0 with hneg | ⟨a, b, hf, hl⟩
    · refine ⟨false, by simp [hneg], ?_⟩
      simp [hneg]
    · rcases hl with h0 | ⟨h1, t, ht, _⟩ | ⟨h2, t, u, ht, hu, _, _⟩
      · refine ⟨false, by simp [h0], ?_⟩
        simp [h0]
      · refine ⟨isFloating t, by simp [h1, FlattenedFields.get, hf, FlattenedField.isFloating, ht], ?_⟩
        constructor
        · intro hfl
          exact ⟨Or.inl h1, 0, t, by simp [h1], by simp [FlattenedFields.get, hf, ht], hfl⟩
        · rintro ⟨_, i, t2, hi, hty, hfl⟩
          have hi0 : i = 0 := by omega
          subst hi0
          simp [FlattenedFields.get, hf, ht] at hty
          subst hty
          exact hfl
      · refine ⟨isFloating t || isFloating u, ?_, ?_⟩
        · simp [h2, FlattenedFields.get, hf, FlattenedField.isFloating, ht, hu]
          cases isFloating t <;> simp
        · constructor
          · intro hfl
            refine ⟨Or.inr h2, ?_⟩
            cases hft : isFloating t
            · simp [hft] at hfl
              exact ⟨1, u, by simp [h2], by simp [FlattenedFields.get, hf, hu], hfl⟩
            · exact ⟨0, t, by simp [h2], by simp [FlattenedFields.get, hf, ht], hft⟩
          · rintro ⟨_, i, t2, hi, hty, hfl⟩
            have hi01 : i = 0 ∨ i = 1 := by omega
            rcases hi01 with rfl | rfl
            · simp [FlattenedFields.get, hf, ht] at hty
              subst hty
              simp [hfl]
            · simp [FlattenedFields.get, hf, hu] at hty
              subst hty
              simp [hfl]

theorem typeFlat_isSome (ty : DType) (flat : FlattenedFields) (hs : flat.Slots)
    (hl : flat.length = 1 ∨ flat.length = 2) :
    ∃ asType, HardfloatRewrite.typeFlat ty flat = some asType := by
  obtain ⟨a, b, hf, h⟩ := hs
  rcases h with h0 | ⟨h1, t, ht, _⟩ | ⟨h2, t, u, ht, hu, _, _⟩
  · omega
  · exact ⟨.LLStructType [.DtoType t] false,
      by simp [HardfloatRewrite.typeFlat, h1, FlattenedFields.get, hf, ht]⟩
  · exact ⟨.LLStructType
        [if isFloating t = true then .DtoType t else .LLIntegerType (size t * 8),
         if isFloating u = true then .DtoType u else .LLIntegerType (size u * 8)] false,
      by simp [HardfloatRewrite.typeFlat, h2, FlattenedFields.get, hf, ht, hu,
        HardfloatRewrite.elementType]⟩

theorem type_isSome_of_condition (ty : DType) (h : HardfloatCondition ty) :
    ∃ asType, HardfloatRewrite.type ty = some asType := by
  obtain ⟨_, hl, _⟩ := h
  rcases visitStructFields_slots ty 0 with hneg | hs
  · omega
  · exact typeFlat_isSome ty _ hs hl

theorem rewriteArgumentTail_rewrite (abi : TargetABI) (arg : IrFuncTyArg) :
    (rewriteArgumentTail abi arg).rewrite = arg.rewrite ∨
      (rewriteArgumentTail abi arg).rewrite = some .indirectByvalRewrite ∨
      (rewriteArgumentTail abi arg).rewrite = some .integer2Rewrite ∨
      (rewriteArgumentTail abi arg).rewrite = some .integerRewrite := by
  unfold rewriteArgumentTail ABIRewrite.applyToIfNotObsolete ABIRewrite.applyTo
  simp only
  split_ifs <;> simp

mutual
theorem leavesAtMost8_of_fields : ∀ (ty : DType), size ty ≤ 8 → fieldsAtMost8 ty = true →
    leavesAtMost8 ty = true
  | .struct fields _ _ _, _, h => by
    rw [fieldsAtMost8] at h
    rw [leavesAtMost8]
    exact leavesAtMost8List_of_fields fields h
  | .enum memtype, hs, h => by
    rw [fieldsAtMost8] at h
    rw [size] at hs
    rw [leavesAtMost8]
    exact leavesAtMost8_of_fields memtype hs h
  | .pointer _, _, _ => by rw [leavesAtMost8]
  | .basic ty sz _ _ _ _, hs, _ => by
    rw [size] at hs
    simp [leavesAtMost8, hs]
theorem leavesAtMost8List_of_fields : ∀ (fields : List (DType × Nat)),
    fieldsAtMost8List fields = true → leavesAtMost8List fields = true
  | [], _ => by rw [leavesAtMost8List]
  | (fiType, _) :: rest, h => by
    rw [fieldsAtMost8List] at h
    simp only [Bool.and_eq_true, decide_eq_true_eq] at h
    rw [leavesAtMost8List]
    simp only [Bool.and_eq_true]
    exact ⟨leavesAtMost8_of_fields fiType h.1.1 h.1.2, leavesAtMost8List_of_fields rest h.2⟩
end

theorem leavesAtMost8_of_struct : ∀ (ty : DType), (isTypeStruct (toBasetype ty)).isSome = true →
    fieldsAtMost8 ty = true → leavesAtMost8 ty = true
  | .struct fields _ _ _, _, h => by
    rw [fieldsAtMost8] at h
    rw [leavesAtMost8]
    exact leavesAtMost8List_of_fields fields h
  | .enum memtype, hs, h => by
    rw [fieldsAtMost8] at h
    rw [toBasetype] at hs
    rw [leavesAtMost8]
    exact leavesAtMost8_of_struct memtype hs h
  | .pointer _, hs, _ => by simp [toBasetype, isTypeStruct] at hs
  | .basic _ _ _ _ _ _, hs, _ => by simp [toBasetype, isTypeStruct] at hs

theorem visitScalar_length (ty : DType) (baseOffset : Nat) :
    (visitScalar ty baseOffset).length =
      if ty.ty = .Tcomplex32 ∨ ty.ty = .Tcomplex64 then 2
      else if size ty > 8 then -1 else 1 := by
  unfold visitScalar
  split
  · rename_i h; simp [h]
  · rename_i h; simp [h]
  · rename_i h1 h2
    have hn : ¬ (ty.ty = .Tcomplex32 ∨ ty.ty = .Tcomplex64) := by
      rintro (h | h)
      · exact h1 h
      · exact h2 h
    rw [if_neg hn]
    split <;> rfl

mutual
theorem visitStructFields_length : ∀ (ty : DType) (baseOffset : Nat), leavesAtMost8 ty = true →
    (visitStructFields ty baseOffset).length = if leafCount ty ≤ 2 then (leafCount ty : Int) else -1
  | .struct fields _ _ _, baseOffset, h => by
    rw [leavesAtMost8] at h
    rw [visitStructFields, leafCount]
    have := visitFields_length fields baseOffset {} slots_empty h
    simpa using this
  | .enum memtype, baseOffset, h => by
    rw [leavesAtMost8] at h
    rw [visitStructFields, leafCount]
    exact visitStructFields_length memtype baseOffset h
  | .pointer next, baseOffset, _ => by
    rw [visitStructFields, leafCount, visitScalar_length]
    simp [DType.ty, size]
  | .basic ty sz al fl pod ag, baseOffset, h => by
    rw [visitStructFields, leafCount, visitScalar_length]
    simp only [leavesAtMost8, Bool.or_eq_true, decide_eq_true_eq] at h
    simp only [DType.ty, size]
    by_cases hc : ty = .Tcomplex32 ∨ ty = .Tcomplex64
    · simp [hc]
    · have hsz : sz ≤ 8 := by tauto
      simp [hc, hsz]
theorem visitFields_length : ∀ (fields : List (DType × Nat)) (baseOffset : Nat)
    (result : FlattenedFields), result.Slots → leavesAtMost8List fields = true →
    (visitFields fields baseOffset result).length =
      if result.length + leafCountList fields ≤ 2 then result.length + leafCountList fields
      else -1
  | [], _, result, hr, _ => by
    rw [visitFields, leafCountList]
    obtain ⟨a, b, _, hl⟩ := hr
    have : result.length ≤ 2 := by omega
    simp [this]
  | (fiType, fiOffset) :: rest, baseOffset, result, hr, h => by
    rw [leavesAtMost8List] at h
    simp only [Bool.and_eq_true] at h
    rw [visitFields, leafCountList]
    have hsub := visitStructFields_length fiType (u32 (baseOffset + fiOffset)) h.1
    have hr0 : 0 ≤ result.length := by
      obtain ⟨a, b, _, hl⟩ := hr
      omega
    split
    · rename_i hc
      have : ¬ (result.length + ((leafCount fiType : Int) + (leafCountList rest : Int)) ≤ 2) := by
        by_cases hlc : leafCount fiType ≤ 2
        · rw [hsub, if_pos hlc] at hc
          omega
        · omega
      push_cast
      rw [if_neg this]
    · rename_i hc
      rcases visitStructFields_slots fiType (u32 (baseOffset + fiOffset)) with hneg | hs
      · exact absurd (Or.inl hneg) hc
      · have hle : result.length +
            (visitStructFields fiType (u32 (baseOffset + fiOffset))).length ≤ 2 := by
          by_contra hgt
          exact hc (Or.inr (by omega))
        obtain ⟨hs2, hl2⟩ := copyFields_slots _ _ hs hr hle
        rw [visitFields_length rest baseOffset _ hs2 h.2, hl2]
        have hlc : (visitStructFields fiType (u32 (baseOffset + fiOffset))).length
            = (leafCount fiType : Int) := by
          by_cases hlc : leafCount fiType ≤ 2
          · rw [hsub, if_pos hlc]
          · rw [hsub, if_neg hlc] at hc
            exact absurd (Or.inl rfl) hc
        rw [hlc]
        push_cast
        simp only [add_assoc]
end

theorem elementStoreSize_element (t : DType) :
    elementStoreSize (if isFloating t = true then LLType.DtoType t
      else LLType.LLIntegerType (size t * 8)) = size t := by
  split
  · rfl
  · simp only [elementStoreSize]
    omega

theorem slotBytes_length (x : Memory) (offset n : Nat) : (slotBytes x offset n).length = n := by
  simp [slotBytes]

theorem put_length_one (ty : DType) (x : Memory) (init : Nat → Nat → Byte)
    (a b : FlattenedField) (t : DType) (hf : (visitStructFields ty 0).fields = [a, b])
    (hl : (visitStructFields ty 0).length = 1) (ht : a.ty = some t) :
    HardfloatRewrite.put ⟨ty, true, x⟩ init = some [slotBytes x a.offset (size t)] := by
  simp [HardfloatRewrite.put, HardfloatRewrite.typeFlat, hl, FlattenedFields.get, hf, ht,
    toUnsigned, HardfloatRewrite.putLoop, FlattenedField.size, DtoRawAllocaShape, allocaElements,
    elementStoreSize, memCpyToElement, slotBytes_length]

theorem put_length_two (ty : DType) (x : Memory) (init : Nat → Nat → Byte)
    (a b : FlattenedField) (t u : DType) (hf : (visitStructFields ty 0).fields = [a, b])
    (hl : (visitStructFields ty 0).length = 2) (ht : a.ty = some t) (hu : b.ty = some u) :
    HardfloatRewrite.put ⟨ty, true, x⟩ init =
      some [slotBytes x a.offset (size t), slotBytes x b.offset (size u)] := by
  simp [HardfloatRewrite.put, HardfloatRewrite.typeFlat, hl, FlattenedFields.get, hf, ht, hu,
    toUnsigned, HardfloatRewrite.putLoop, FlattenedField.size, DtoRawAllocaShape, allocaElements,
    HardfloatRewrite.elementType, memCpyToElement, slotBytes_length, elementStoreSize_element]

theorem getLVal_length_one (ty : DType) (r0 : List Byte) (init : Memory)
    (a b : FlattenedField) (t : DType) (hf : (visitStructFields ty 0).fields = [a, b])
    (hl : (visitStructFields ty 0).length = 1) (ht : a.ty = some t) (h0 : r0.length = size t) :
    HardfloatRewrite.getLVal ty [r0] init = some (overwrite init a.offset (size t) r0) := by
  simp [HardfloatRewrite.getLVal, HardfloatRewrite.typeFlat, hl, FlattenedFields.get, hf, ht,
    toUnsigned, HardfloatRewrite.getLValLoop, FlattenedField.size, memCpyFromElement, h0]

theorem getLVal_length_two (ty : DType) (r0 r1 : List Byte) (init : Memory)
    (a b : FlattenedField) (t u : DType) (hf : (visitStructFields ty 0).fields = [a, b])
    (hl : (visitStructFields ty 0).length = 2) (ht : a.ty = some t) (hu : b.ty = some u)
    (h0 : r0.length = size t) (h1 : r1.length = size u) :
    HardfloatRewrite.getLVal ty [r0, r1] init =
      some (overwrite (overwrite init a.offset (size t) r0) b.offset (size u) r1) := by
  simp [HardfloatRewrite.getLVal, HardfloatRewrite.typeFlat, hl, FlattenedFields.get, hf, ht, hu,
    toUnsigned, HardfloatRewrite.getLValLoop, FlattenedField.size, memCpyFromElement, h0, h1,
    HardfloatRewrite.elementType]

theorem overwrite_slotBytes_self (ret x : Memory) (offset n a : Nat) (h : x a = ret a ∨
    (offset ≤ a ∧ a < offset + n)) :
    overwrite ret offset n (slotBytes x offset n) a = x a := by
  unfold overwrite
  split
  · rename_i hr
    have hk : a - offset < n := by omega
    simp [slotBytes, List.getD, List.getElem?_map, List.getElem?_range hk]
    congr 1
    omega
  · rcases h with h | h
    · exact h.symm
    · contradiction

theorem condition_of_require (ty : DType) (h : requireHardfloatRewrite ty = some true) :
    HardfloatCondition ty := by
  obtain ⟨b, hb, hiff⟩ := requireHardfloatRewrite_spec ty
  rw [h] at hb
  cases hb
  exact hiff.mp rfl

theorem slotBytes_overwrite_self (ret : Memory) (offset n : Nat) (region : List Byte)
    (h : region.length = n) : slotBytes (overwrite ret offset n region) offset n = region := by
  apply List.ext_getElem
  · simp [slotBytes, h]
  · intro k h1 h2
    simp only [slotBytes_length] at h1
    simp [slotBytes, overwrite, h1, List.getD, List.getElem?_eq_getElem h2]

theorem slotBytes_overwrite_disjoint (ret : Memory) (offset n offset' n' : Nat)
    (region : List Byte) (h : offset' + n' ≤ offset ∨ offset + n ≤ offset') :
    slotBytes (overwrite ret offset n region) offset' n' = slotBytes ret offset' n' := by
  unfold slotBytes
  apply List.map_congr_left
  intro k hk
  have hk' : k < n' := List.mem_range.mp hk
  unfold overwrite
  rw [if_neg]
  omega

theorem slotsDisjoint_structFloat2 : slotsDisjoint (visitStructFields structFloat2 0) := by
  intro i j t u hij hj hti huj
  have hlen : (visitStructFields structFloat2 0).length = 2 := by decide
  rw [hlen] at hj
  have hi0 : i = 0 := by omega
  have hj1 : j = 1 := by omega
  subst hi0 hj1
  have h0 : ((visitStructFields structFloat2 0).get 0).ty = some tfloat32 := rfl
  have h1 : ((visitStructFields structFloat2 0).get 1).ty = some tfloat32 := rfl
  rw [h0] at hti
  rw [h1] at huj
  cases hti
  cases huj
  left
  decide

theorem isTypeStruct_of_ty (ty : DType) (h : ty.ty ≠ .Tstruct) : isTypeStruct ty = none := by
  cases ty <;> simp [DType.ty, isTypeStruct] at h ⊢

theorem requireHardfloatRewrite_of_not_struct (ty : DType)
    (h : (toBasetype ty).ty ≠ .Tstruct) : requireHardfloatRewrite ty = some false := by
  simp [requireHardfloatRewrite, isTypeStruct_of_ty _ h]

theorem rewriteArgument_vararg (abi : TargetABI) (arg : IrFuncTyArg) :
    ∃ out, rewriteArgument abi arg true = some out ∧
      ((abi.rewriteArgument arg).rewrite ≠ none → out = abi.rewriteArgument arg) ∧
      ((abi.rewriteArgument arg).rewrite = none →
        out = rewriteArgumentTail abi (abi.rewriteArgument arg) ∧
        out.rewrite ≠ some ABIRewrite.hardfloatRewrite) := by
  cases hb : (abi.rewriteArgument arg).rewrite with
  | none =>
    refine ⟨rewriteArgumentTail abi (abi.rewriteArgument arg), by simp [rewriteArgument, hb],
      fun h => absurd rfl h, fun _ => ⟨rfl, ?_⟩⟩
    intro h
    rcases rewriteArgumentTail_rewrite abi (abi.rewriteArgument arg) with h1 | h1 | h1 | h1 <;>
      rw [h1] at h <;> simp [hb] at h
  | some r =>
    exact ⟨abi.rewriteArgument arg, by simp [rewriteArgument, hb], fun _ => rfl,
      fun h => by cases h⟩

theorem rewriteArgumentTail_cases (abi : TargetABI) (arg : IrFuncTyArg) :
    rewriteArgumentTail abi arg = arg ∨
      rewriteArgumentTail abi arg =
        ABIRewrite.indirectByvalRewrite.applyTo (abi.indirectByvalRewriteType arg.type) arg ∨
      rewriteArgumentTail abi arg =
        ABIRewrite.integer2Rewrite.applyToIfNotObsolete abi (Integer2Rewrite.type arg.type) arg ∨
      rewriteArgumentTail abi arg =
        ABIRewrite.integerRewrite.applyToIfNotObsolete abi (abi.integerRewriteType arg.type)
          arg := by
  unfold rewriteArgumentTail
  simp only
  split_ifs <;> simp

theorem copyFieldsChecked_eq (sub result : FlattenedFields) (hs : sub.Slots) (hr : result.Slots)
    (hle : result.length + sub.length ≤ 2) :
    copyFieldsChecked sub (toUnsigned sub.length) 0 result =
      some (copyFields sub (toUnsigned sub.length) 0 result) := by
  obtain ⟨a, b, hf, hl⟩ := hs
  obtain ⟨c, d, hg, hm⟩ := hr
  rcases sub with ⟨sf, sl⟩
  rcases result with ⟨rf, rl⟩
  simp only at hf hl hg hm hle
  subst hf hg
  rcases hl with rfl | ⟨rfl, _⟩ | ⟨rfl, _⟩
  · simp [toUnsigned, copyFields, copyFieldsChecked]
  · rcases hm with rfl | ⟨rfl, _⟩ | ⟨rfl, _⟩
    · simp [toUnsigned, copyFields, copyFieldsChecked, checkedRead, checkedWrite]
    · simp [toUnsigned, copyFields, copyFieldsChecked, checkedRead, checkedWrite]
    · omega
  · rcases hm with rfl | ⟨rfl, _⟩ | ⟨rfl, _⟩
    · simp [toUnsigned, copyFields, copyFieldsChecked, checkedRead, checkedWrite]
    · omega
    · omega

mutual
theorem visitStructFieldsChecked_eq : ∀ (ty : DType) (baseOffset : Nat),
    visitStructFieldsChecked ty baseOffset = some (visitStructFields ty baseOffset)
  | .struct fields _ _ _, baseOffset => by
    rw [visitStructFieldsChecked, visitStructFields]
    exact visitFieldsChecked_eq fields baseOffset {} slots_empty
  | .enum memtype, baseOffset => by
    rw [visitStructFieldsChecked, visitStructFields]
    exact visitStructFieldsChecked_eq memtype baseOffset
  | .pointer next, baseOffset => by rw [visitStructFieldsChecked, visitStructFields]
  | .basic ty sz al fl pod ag, baseOffset => by rw [visitStructFieldsChecked, visitStructFields]
theorem visitFieldsChecked_eq : ∀ (fields : List (DType × Nat)) (baseOffset : Nat)
    (result : FlattenedFields), result.Slots →
    visitFieldsChecked fields baseOffset result = some (visitFields fields baseOffset result)
  | [], _, result, _ => by rw [visitFieldsChecked, visitFields]
  | (fiType, fiOffset) :: rest, baseOffset, result, h => by
    rw [visitFieldsChecked, visitFields,
      visitStructFieldsChecked_eq fiType (u32 (baseOffset + fiOffset))]
    simp only
    split
    · rfl
    · rename_i hc
      rcases visitStructFields_slots fiType (u32 (baseOffset + fiOffset)) with hneg | hs
      · exact absurd (Or.inl hneg) hc
      · have hle : result.length +
            (visitStructFields fiType (u32 (baseOffset + fiOffset))).length ≤ 2 := by
          by_contra hgt
          exact hc (Or.inr (by omega))
        have hnn : ¬ (visitStructFields fiType (u32 (baseOffset + fiOffset))).length < 0 := by
          obtain ⟨_, _, _, hl⟩ := hs
          omega
        rw [if_neg hnn, copyFieldsChecked_eq _ _ hs h hle]
        exact visitFieldsChecked_eq rest baseOffset _ (copyFields_slots _ _ hs h hle).1
end

theorem holds_slots (r : FlattenedFields) (leaves : List FlattenedField) (h : r.Holds leaves) :
    outcome r = .slots leaves := by
  obtain ⟨hl, _, hf⟩ := h
  have hne : r.length ≠ -1 := by omega
  simp [outcome, hne, hl, hf]

theorem holds_empty : FlattenedFields.Holds {} [] :=
  ⟨rfl, by simp, rfl⟩

theorem copyFields_holds (sub result : FlattenedFields) (M L : List FlattenedField)
    (hs : sub.Holds M) (hr : result.Holds L) (hle : L.length + M.length ≤ 2) :
    (copyFields sub (toUnsigned sub.length) 0 result).Holds (L ++ M) := by
  obtain ⟨hsl, _, hsf⟩ := hs
  obtain ⟨hrl, _, hrf⟩ := hr
  rcases sub with ⟨sf, sl⟩
  rcases result with ⟨rf, rl⟩
  simp only at hsl hsf hrl hrf
  subst hsl hsf hrl hrf
  rcases M with _ | ⟨m, _ | ⟨n, _ | ⟨k, M⟩⟩⟩ <;> rcases L with _ | ⟨x, _ | ⟨y, _ | ⟨z, L⟩⟩⟩ <;>
    (try simp only [List.length_cons, List.length_nil] at hle) <;>
    first
    | omega
    | simp [FlattenedFields.Holds, toUnsigned, copyFields, FlattenedFields.get]

mutual
theorem visitStructFields_reference : ∀ (ty : DType) (b : Nat),
    (leavesAtMost8 ty = true ∧
        (referenceLeaves (pointerTo tfloat32) (pointerTo tfloat64) ty b).length ≤ 2 →
      (visitStructFields ty b).Holds
        (referenceLeaves (pointerTo tfloat32) (pointerTo tfloat64) ty b)) ∧
    (¬ (leavesAtMost8 ty = true ∧
        (referenceLeaves (pointerTo tfloat32) (pointerTo tfloat64) ty b).length ≤ 2) →
      (visitStructFields ty b).length = -1)
  | .struct fields _ _ _, b => by
    rw [visitStructFields, referenceLeaves, leavesAtMost8]
    have h := visitFields_reference fields b {} [] holds_empty
    simpa using h
  | .enum memtype, b => by
    rw [visitStructFields, referenceLeaves, leavesAtMost8]
    exact visitStructFields_reference memtype b
  | .pointer next, b => by
    rw [visitStructFields, referenceLeaves, leavesAtMost8]
    simp [visitScalar, DType.ty, size, FlattenedFields.Holds]
  | .basic ty sz al fl pod ag, b => by
    rw [visitStructFields, referenceLeaves, leavesAtMost8]
    by_cases h32 : ty = .Tcomplex32
    · subst h32
      simp [visitScalar, DType.ty, FlattenedFields.Holds]
    · by_cases h64 : ty = .Tcomplex64
      · subst h64
        simp [visitScalar, DType.ty, FlattenedFields.Holds]
      · have hv : visitScalar (.basic ty sz al fl pod ag) b =
            if sz > 8 then { length := -1 }
            else { fields := [{ ty := some (.basic ty sz al fl pod ag), offset := b }, {}],
                   length := 1 } := by
          unfold visitScalar
          split
          · rename_i h; exact absurd h h32
          · rename_i h; exact absurd h h64
          · rfl
        rw [hv]
        by_cases hsz : sz ≤ 8
        · have hn : ¬ sz > 8 := by omega
          simp [h32, h64, hsz, hn, FlattenedFields.Holds]
        · have hp : sz > 8 := by omega
          simp [h32, h64, hsz, hp]
theorem visitFields_reference : ∀ (fields : List (DType × Nat)) (b : Nat)
    (result : FlattenedFields) (L : List FlattenedField), result.Holds L →
    (leavesAtMost8List fields = true ∧
        L.length + (referenceLeavesList (pointerTo tfloat32) (pointerTo tfloat64) fields b).length
          ≤ 2 →
      (visitFields fields b result).Holds
        (L ++ referenceLeavesList (pointerTo tfloat32) (pointerTo tfloat64) fields b)) ∧
    (¬ (leavesAtMost8List fields = true ∧
        L.length + (referenceLeavesList (pointerTo tfloat32) (pointerTo tfloat64) fields b).length
          ≤ 2) →
      (visitFields fields b result).length = -1)
  | [], b, result, L, hr => by
    rw [visitFields, referenceLeavesList, leavesAtMost8List]
    have hL : L.length ≤ 2 := hr.2.1
    simp [hr, hL]
  | (fiType, fiOffset) :: rest, b, result, L, hr => by
    rw [visitFields, referenceLeavesList, leavesAtMost8List]
    obtain ⟨ih1a, ih1b⟩ := visitStructFields_reference fiType (u32 (b + fiOffset))
    simp only [Bool.and_eq_true, List.length_append]
    by_cases hgood : leavesAtMost8 fiType = true ∧
        (referenceLeaves (pointerTo tfloat32) (pointerTo tfloat64) fiType
          (u32 (b + fiOffset))).length ≤ 2
    · have hsub := ih1a hgood
      have hsl := hsub.1
      have hrl := hr.1
      by_cases hfit : L.length + (referenceLeaves (pointerTo tfloat32) (pointerTo tfloat64)
          fiType (u32 (b + fiOffset))).length ≤ 2
      · have hguard : ¬ ((visitStructFields fiType (u32 (b + fiOffset))).length = -1 ∨
            result.length + (visitStructFields fiType (u32 (b + fiOffset))).length > 2) := by
          rw [hsl, hrl]
          omega
        rw [if_neg hguard]
        obtain ⟨ih2a, ih2b⟩ := visitFields_reference rest b _ _
          (copyFields_holds _ _ _ _ hsub hr hfit)
        constructor
        · rintro ⟨⟨_, hrest⟩, hlen⟩
          have := ih2a ⟨hrest, by rw [List.length_append]; omega⟩
          rwa [List.append_assoc] at this
        · intro hbad
          apply ih2b
          rintro ⟨hrest, hlen⟩
          apply hbad
          rw [List.length_append] at hlen
          exact ⟨⟨hgood.1, hrest⟩, by omega⟩
      · have hguard : (visitStructFields fiType (u32 (b + fiOffset))).length = -1 ∨
            result.length + (visitStructFields fiType (u32 (b + fiOffset))).length > 2 := by
          rw [hsl, hrl]
          right
          omega
        rw [if_pos hguard]
        constructor
        · rintro ⟨_, hlen⟩
          omega
        · intro _
          rfl
    · have hneg := ih1b hgood
      rw [if_pos (Or.inl hneg)]
      constructor
      · rintro ⟨⟨ht, _⟩, hlen⟩
        exact absurd ⟨ht, by omega⟩ hgood
      · intro _
        rfl
end

mutual
theorem leavesAtMost8_of_no_leaves : ∀ (ty : DType) (b : Nat),
    referenceLeaves (pointerTo tfloat32) (pointerTo tfloat64) ty b = [] →
    leavesAtMost8 ty = true
  | .struct fields _ _ _, b, h => by
    rw [referenceLeaves] at h
    rw [leavesAtMost8]
    exact leavesAtMost8List_of_no_leaves fields b h
  | .enum memtype, b, h => by
    rw [referenceLeaves] at h
    rw [leavesAtMost8]
    exact leavesAtMost8_of_no_leaves memtype b h
  | .pointer _, _, _ => by rw [leavesAtMost8]
  | .basic ty sz al fl pod ag, b, h => by
    rw [referenceLeaves] at h
    split_ifs at h
theorem leavesAtMost8List_of_no_leaves : ∀ (fields : List (DType × Nat)) (b : Nat),
    referenceLeavesList (pointerTo tfloat32) (pointerTo tfloat64) fields b = [] →
    leavesAtMost8List fields = true
  | [], _, _ => by rw [leavesAtMost8List]
  | (fiType, fiOffset) :: rest, b, h => by
    rw [referenceLeavesList, List.append_eq_nil] at h
    rw [leavesAtMost8List, Bool.and_eq_true]
    exact ⟨leavesAtMost8_of_no_leaves fiType _ h.1, leavesAtMost8List_of_no_leaves rest b h.2⟩
end

theorem boundedOrPlain_append (M R : List FlattenedField) (bound : Nat)
    (hM : boundedOrPlain M bound) (hR : boundedOrPlain R bound) :
    boundedOrPlain (M ++ R) bound := by
  rcases hM with hM | hM
  · rcases hR with hR | hR
    · left
      intro f hf
      rcases List.mem_append.mp hf with h | h
      · exact hM f h
      · exact hR f h
    · right
      rw [List.filter_append, List.length_append]
      omega
  · right
    rw [List.filter_append, List.length_append]
    omega

theorem boundedOrPlain_mono (L : List FlattenedField) (bound bound' : Nat) (h : bound ≤ bound')
    (hL : boundedOrPlain L bound) : boundedOrPlain L bound' := by
  rcases hL with hL | hL
  · left
    intro f hf
    obtain ⟨t, ht, hle⟩ := hL f hf
    exact ⟨t, ht, by omega⟩
  · exact Or.inr hL

theorem u32_le (n : Nat) : u32 n ≤ n := Nat.mod_le n _

mutual
theorem referenceLeaves_bounded : ∀ (ty : DType) (b : Nat), wellFormed ty = true →
    boundedOrPlain (referenceLeaves (pointerTo tfloat32) (pointerTo tfloat64) ty b) (b + size ty)
  | .struct fields sz _ _, b, h => by
    rw [wellFormed] at h
    rw [referenceLeaves, size]
    exact referenceLeavesList_bounded fields b sz h
  | .enum memtype, b, h => by
    rw [wellFormed] at h
    rw [referenceLeaves, size]
    exact referenceLeaves_bounded memtype b h
  | .pointer next, b, _ => by
    rw [referenceLeaves, size]
    left
    intro f hf
    simp only [List.mem_singleton] at hf
    subst hf
    exact ⟨_, rfl, by simp [size]⟩
  | .basic ty sz al fl pod ag, b, _ => by
    rw [referenceLeaves, size]
    split_ifs
    · right
      simp [FlattenedField.notFloating, pointerTo, isFloating]
    · right
      simp [FlattenedField.notFloating, pointerTo, isFloating]
    · left
      intro f hf
      simp only [List.mem_singleton] at hf
      subst hf
      exact ⟨_, rfl, by simp [size]⟩
theorem referenceLeavesList_bounded : ∀ (fields : List (DType × Nat)) (b structSize : Nat),
    wellFormedFields fields structSize = true →
    boundedOrPlain (referenceLeavesList (pointerTo tfloat32) (pointerTo tfloat64) fields b)
      (b + structSize)
  | [], b, structSize, _ => by
    rw [referenceLeavesList]
    left
    intro f hf
    cases hf
  | (fiType, fiOffset) :: rest, b, structSize, h => by
    rw [wellFormedFields] at h
    simp only [Bool.and_eq_true, decide_eq_true_eq] at h
    rw [referenceLeavesList]
    apply boundedOrPlain_append
    · have := referenceLeaves_bounded fiType (u32 (b + fiOffset)) h.1.2
      have hle := u32_le (b + fiOffset)
      exact boundedOrPlain_mono _ _ _ (by omega) this
    · exact referenceLeavesList_bounded rest b structSize h.2
end

theorem within_of_bounded_one (x : FlattenedField) (bound : Nat) (t : DType)
    (ht : x.ty = some t) (hfl : isFloating t = true) (h : boundedOrPlain [x] bound) :
    x.within bound := by
  rcases h with h | h
  · exact h x (List.mem_singleton.mpr rfl)
  · simp [List.filter, FlattenedField.notFloating, ht, hfl] at h

theorem within_of_bounded_two (x y : FlattenedField) (bound : Nat) (t : DType)
    (ht : x.ty = some t ∨ y.ty = some t) (hfl : isFloating t = true)
    (h : boundedOrPlain [x, y] bound) : x.within bound ∧ y.within bound := by
  rcases h with h | h
  · exact ⟨h x (by simp), h y (by simp)⟩
  · exfalso
    rcases ht with ht | ht
    · have hx : x.notFloating = false := by simp [FlattenedField.notFloating, ht, hfl]
      simp only [List.filter, hx] at h
      split at h <;> simp at h
    · have hy : y.notFloating = false := by simp [FlattenedField.notFloating, ht, hfl]
      simp only [List.filter, hy] at h
      split at h <;> simp at h

/-! ## The claims -/

/-- Claim C1: when the base logic assigned no rewrite, `rewriteArgument` with `isVararg = false`
returns, and the argument carries the Hardfloat rewrite exactly when its base type is a struct and
`visitStructFields(type, 0)` has length 1 or 2 with at least one floating-point slot; with
length 0 or -1 the Hardfloat rewrite is not attached. -/
theorem C1_hardfloat_iff (abi : TargetABI) (arg : IrFuncTyArg)
    (hbase : (abi.rewriteArgument arg).rewrite = none) :
    ∃ out, rewriteArgument abi arg false = some out ∧
      (out.rewrite = some ABIRewrite.hardfloatRewrite ↔
        HardfloatCondition (abi.rewriteArgument arg).type) ∧
      ((visitStructFields (abi.rewriteArgument arg).type 0).length = 0 ∨
        (visitStructFields (abi.rewriteArgument arg).type 0).length = -1 →
        out.rewrite ≠ some ABIRewrite.hardfloatRewrite) := by
  obtain ⟨b, hb, hiff⟩ := requireHardfloatRewrite_spec (abi.rewriteArgument arg).type
  have key : ∃ out, rewriteArgument abi arg false = some out ∧
      (out.rewrite = some ABIRewrite.hardfloatRewrite ↔
        HardfloatCondition (abi.rewriteArgument arg).type) := by
    cases b with
    | true =>
      have hc := hiff.mp rfl
      obtain ⟨asType, hty⟩ := type_isSome_of_condition _ hc
      refine ⟨ABIRewrite.hardfloatRewrite.applyTo asType (abi.rewriteArgument arg), ?_, ?_⟩
      · simp [rewriteArgument, hbase, hb, hty]
      · simp [ABIRewrite.applyTo, hc]
    | false =>
      have hc : ¬ HardfloatCondition (abi.rewriteArgument arg).type := fun h => by
        have := hiff.mpr h
        cases this
      refine ⟨rewriteArgumentTail abi (abi.rewriteArgument arg), ?_, ?_⟩
      · simp [rewriteArgument, hbase, hb]
      · constructor
        · intro h
          rcases rewriteArgumentTail_rewrite abi (abi.rewriteArgument arg) with h1 | h1 | h1 | h1 <;>
            rw [h1] at h <;> simp [hbase] at h
        · intro h
          exact absurd h hc
  obtain ⟨out, hout, hio⟩ := key
  refine ⟨out, hout, hio, ?_⟩
  intro hlen hrw
  obtain ⟨_, hl, _⟩ := hio.mp hrw
  omega

/-- Witness of claim C1 at a fresh `struct { float; float; }` parameter. -/
theorem C1_hardfloat_iff_witness :
    (exampleABI.rewriteArgument (freshArg structFloat2)).rewrite = none ∧
    ∃ out, rewriteArgument exampleABI (freshArg structFloat2) false = some out ∧
      (out.rewrite = some ABIRewrite.hardfloatRewrite ↔
        HardfloatCondition (exampleABI.rewriteArgument (freshArg structFloat2)).type) ∧
      ((visitStructFields (exampleABI.rewriteArgument (freshArg structFloat2)).type 0).length = 0 ∨
        (visitStructFields (exampleABI.rewriteArgument (freshArg structFloat2)).type 0).length = -1 →
        out.rewrite ≠ some ABIRewrite.hardfloatRewrite) :=
  ⟨rfl, C1_hardfloat_iff exampleABI (freshArg structFloat2) rfl⟩

/-- Claim C2 as stated fails: `struct { int; int; int; }` has only fields of 4 bytes and a total
size of 12 bytes, and `visitStructFields` returns the unsupported sentinel. -/
theorem C2_counterexample :
    (isTypeStruct (toBasetype structInt3)).isSome = true ∧ fieldsAtMost8 structInt3 = true ∧
      size structInt3 ≤ 16 ∧ (visitStructFields structInt3 0).length = -1 := by
  decide

/-- Claim C2 (amended): for every struct type all of whose (recursively nested) fields have
size at most 8 bytes and whose total size is at most 16 bytes, `visitStructFields(type, 0)`
returns a length in {-1, 0, 1, 2}, never more than 2 slots; the length is -1 exactly when the
struct has more than two leaves, and otherwise it is the number of leaves. -/
theorem C2_length_of_small_fields (ty : DType)
    (hstruct : (isTypeStruct (toBasetype ty)).isSome = true)
    (hfields : fieldsAtMost8 ty = true) (_htotal : size ty ≤ 16) :
    ((visitStructFields ty 0).length = -1 ∨ (visitStructFields ty 0).length = 0 ∨
      (visitStructFields ty 0).length = 1 ∨ (visitStructFields ty 0).length = 2) ∧
    ((visitStructFields ty 0).length = -1 ↔ 2 < leafCount ty) ∧
    (leafCount ty ≤ 2 → (visitStructFields ty 0).length = leafCount ty) := by
  have h := visitStructFields_length ty 0 (leavesAtMost8_of_struct ty hstruct hfields)
  by_cases hc : leafCount ty ≤ 2
  · rw [if_pos hc] at h
    refine ⟨by omega, ⟨fun h1 => by omega, fun h2 => by omega⟩, fun _ => h⟩
  · rw [if_neg hc] at h
    refine ⟨Or.inl h, ⟨fun _ => by omega, fun _ => h⟩, fun h2 => absurd h2 hc⟩

/-- Witness of the amended claim C2 at `struct { float; float; }`. -/
theorem C2_length_of_small_fields_witness :
    ((visitStructFields structFloat2 0).length = -1 ∨ (visitStructFields structFloat2 0).length = 0 ∨
      (visitStructFields structFloat2 0).length = 1 ∨ (visitStructFields structFloat2 0).length = 2) ∧
    ((visitStructFields structFloat2 0).length = -1 ↔ 2 < leafCount structFloat2) ∧
    (leafCount structFloat2 ≤ 2 → (visitStructFields structFloat2 0).length = leafCount structFloat2) :=
  C2_length_of_small_fields structFloat2 (by decide) (by decide) (by decide)

/-- Claim C3: for every type accepted by `requireHardfloatRewrite` and every memory image `x`,
`put` and then `getLVal` both return, and the storage they produce agrees with `x` on every byte
of the range of every slot of `visitStructFields(type, 0)`. -/
theorem C3_put_getLVal_roundtrip (ty : DType) (hreq : requireHardfloatRewrite ty = some true)
    (x : Memory) (init : Nat → Nat → Byte) (retInit : Memory) :
    ∃ v ret, HardfloatRewrite.put ⟨ty, true, x⟩ init = some v ∧
      HardfloatRewrite.getLVal ty v retInit = some ret ∧
      ∀ (i : Nat) (t : DType), (i : Int) < (visitStructFields ty 0).length →
        ((visitStructFields ty 0).get i).ty = some t → ∀ k, k < size t →
          ret (((visitStructFields ty 0).get i).offset + k) =
            x (((visitStructFields ty 0).get i).offset + k) := by
  obtain ⟨_, hl, _⟩ := condition_of_require ty hreq
  rcases visitStructFields_slots ty 0 with hneg | ⟨a, b, hf, hs⟩
  · omega
  · rcases hs with h0 | ⟨h1, t, ht, _⟩ | ⟨h2, t, u, ht, hu, _, _⟩
    · omega
    · refine ⟨_, _, put_length_one ty x init a b t hf h1 ht,
        getLVal_length_one ty _ retInit a b t hf h1 ht (slotBytes_length _ _ _), ?_⟩
      intro i t' hi hty k hk
      have hi0 : i = 0 := by omega
      subst hi0
      simp only [FlattenedFields.get, hf, List.getD_cons_zero] at hty ⊢
      rw [ht] at hty
      cases hty
      exact overwrite_slotBytes_self _ _ _ _ _ (Or.inr ⟨by omega, by omega⟩)
    · refine ⟨_, _, put_length_two ty x init a b t u hf h2 ht hu,
        getLVal_length_two ty _ _ retInit a b t u hf h2 ht hu (slotBytes_length _ _ _)
          (slotBytes_length _ _ _), ?_⟩
      intro i t' hi hty k hk
      have hi01 : i = 0 ∨ i = 1 := by omega
      rcases hi01 with rfl | rfl
      · simp only [FlattenedFields.get, hf, List.getD_cons_zero] at hty ⊢
        rw [ht] at hty
        cases hty
        apply overwrite_slotBytes_self
        left
        exact (overwrite_slotBytes_self _ _ _ _ _ (Or.inr ⟨by omega, by omega⟩)).symm
      · simp only [FlattenedFields.get, hf, List.getD_cons_succ, List.getD_cons_zero] at hty ⊢
        rw [hu] at hty
        cases hty
        exact overwrite_slotBytes_self _ _ _ _ _ (Or.inr ⟨by omega, by omega⟩)

/-- Witness of claim C3 at `struct { float; float; }` and the memory image of zero bytes. -/
theorem C3_put_getLVal_roundtrip_witness :
    requireHardfloatRewrite structFloat2 = some true ∧
    ∃ v ret, HardfloatRewrite.put ⟨structFloat2, true, fun _ => 0⟩ (fun _ _ => 0) = some v ∧
      HardfloatRewrite.getLVal structFloat2 v (fun _ => 1) = some ret ∧
      ∀ (i : Nat) (t : DType), (i : Int) < (visitStructFields structFloat2 0).length →
        ((visitStructFields structFloat2 0).get i).ty = some t → ∀ k, k < size t →
          ret (((visitStructFields structFloat2 0).get i).offset + k) =
            (fun _ => (0 : Byte)) (((visitStructFields structFloat2 0).get i).offset + k) :=
  ⟨by decide, C3_put_getLVal_roundtrip structFloat2 (by decide) (fun _ => 0) (fun _ _ => 0)
    (fun _ => 1)⟩

/-- Claim C4 as stated fails: `union { float f; int i; }` is accepted by
`requireHardfloatRewrite`, its ABI shape has two elements, and `getLVal` followed by `put` turns
the value `(01 02 03 04, 05 06 07 08)` into `(05 06 07 08, 05 06 07 08)`. -/
theorem C4_counterexample :
    requireHardfloatRewrite unionFloatInt = some true ∧
    (∃ asType, HardfloatRewrite.type unionFloatInt = some asType ∧
      isShapeOf exampleValue asType) ∧
    ((HardfloatRewrite.getLVal unionFloatInt exampleValue (fun _ => 0)).bind
        fun ret => HardfloatRewrite.put ⟨unionFloatInt, true, ret⟩ (fun _ _ => 0)) =
      some [[5, 6, 7, 8], [5, 6, 7, 8]] ∧
    [[5, 6, 7, 8], [5, 6, 7, 8]] ≠ exampleValue := by
  refine ⟨by decide, ⟨_, rfl, ?_⟩, by decide, by decide⟩
  exact List.Forall₂.cons rfl (List.Forall₂.cons rfl List.Forall₂.nil)

/-- Claim C4 (amended): for every type accepted by `requireHardfloatRewrite` whose slots occupy
byte ranges that do not overlap, and every ABI-shape value `v` of `HardfloatRewrite::type(type)`,
`getLVal` and then `put` both return and give back `v`, element for element. -/
theorem C4_getLVal_put_roundtrip (ty : DType) (hreq : requireHardfloatRewrite ty = some true)
    (hdisj : slotsDisjoint (visitStructFields ty 0))
    (asType : LLType) (htype : HardfloatRewrite.type ty = some asType)
    (v : List (List Byte)) (hshape : isShapeOf v asType)
    (init : Nat → Nat → Byte) (retInit : Memory) :
    ∃ ret, HardfloatRewrite.getLVal ty v retInit = some ret ∧
      HardfloatRewrite.put ⟨ty, true, ret⟩ init = some v := by
  obtain ⟨_, hl, _⟩ := condition_of_require ty hreq
  rcases visitStructFields_slots ty 0 with hneg | ⟨a, b, hf, hs⟩
  · omega
  · rcases hs with h0 | ⟨h1, t, ht, _⟩ | ⟨h2, t, u, ht, hu, _, _⟩
    · omega
    · simp only [HardfloatRewrite.type, HardfloatRewrite.typeFlat, h1, if_true,
        FlattenedFields.get, hf, List.getD_cons_zero, ht, Option.some.injEq] at htype
      subst htype
      simp only [isShapeOf] at hshape
      rcases hshape with _ | ⟨hr0, hrest⟩
      cases hrest
      rename_i r0
      simp only [elementStoreSize] at hr0
      refine ⟨_, getLVal_length_one ty r0 retInit a b t hf h1 ht hr0, ?_⟩
      rw [put_length_one ty _ init a b t hf h1 ht, slotBytes_overwrite_self _ _ _ _ hr0]
    · simp only [HardfloatRewrite.type, HardfloatRewrite.typeFlat, h2,
        FlattenedFields.get, hf, List.getD_cons_zero, List.getD_cons_succ, ht, hu,
        HardfloatRewrite.elementType] at htype
      simp at htype
      subst htype
      simp only [isShapeOf] at hshape
      rcases hshape with _ | ⟨hr0, hrest⟩
      rcases hrest with _ | ⟨hr1, hrest2⟩
      cases hrest2
      rename_i r0 r1
      rw [elementStoreSize_element] at hr0 hr1
      refine ⟨_, getLVal_length_two ty r0 r1 retInit a b t u hf h2 ht hu hr0 hr1, ?_⟩
      rw [put_length_two ty _ init a b t u hf h2 ht hu, slotBytes_overwrite_self _ _ _ _ hr1]
      have hd := hdisj 0 1 t u (by omega) (by omega)
        (by simp [FlattenedFields.get, hf, ht]) (by simp [FlattenedFields.get, hf, hu])
      simp only [FlattenedFields.get, hf, List.getD_cons_zero, List.getD_cons_succ] at hd
      rw [slotBytes_overwrite_disjoint _ _ _ _ _ _ hd, slotBytes_overwrite_self _ _ _ _ hr0]

/-- Witness of the amended claim C4 at `struct { float; float; }` and the value
`(01 02 03 04, 05 06 07 08)`. -/
theorem C4_getLVal_put_roundtrip_witness :
    requireHardfloatRewrite structFloat2 = some true ∧
    slotsDisjoint (visitStructFields structFloat2 0) ∧
    HardfloatRewrite.type structFloat2 =
      some (.LLStructType [.DtoType tfloat32, .DtoType tfloat32] false) ∧
    isShapeOf exampleValue (.LLStructType [.DtoType tfloat32, .DtoType tfloat32] false) ∧
    ∃ ret, HardfloatRewrite.getLVal structFloat2 exampleValue (fun _ => 0) = some ret ∧
      HardfloatRewrite.put ⟨structFloat2, true, ret⟩ (fun _ _ => 0) = some exampleValue :=
  ⟨by decide, slotsDisjoint_structFloat2, rfl,
    List.Forall₂.cons rfl (List.Forall₂.cons rfl List.Forall₂.nil),
    C4_getLVal_put_roundtrip structFloat2 (by decide) slotsDisjoint_structFloat2 _ rfl
      exampleValue (List.Forall₂.cons rfl (List.Forall₂.cons rfl List.Forall₂.nil))
      (fun _ _ => 0) (fun _ => 0)⟩

/-- Claim C5, what the code does: on a 32-bit complex both slots hold the type
`pointerTo(Type::tfloat32)` and on a 64-bit complex the type `pointerTo(Type::tfloat64)`, at
offsets `b`, `b + 4` and `b`, `b + 8` (as `unsigned`); these pointer types are not floating
point, take 8 bytes, and are not the types `float32` and `float64` of the claim. -/
theorem C5_complex_slots_are_pointers (sz al : Nat) (fl pod ag : Bool) (b : Nat) :
    visitStructFields (.basic .Tcomplex32 sz al fl pod ag) b =
      { fields := [{ ty := some (pointerTo tfloat32), offset := b },
                   { ty := some (pointerTo tfloat32), offset := u32 (b + 4) }],
        length := 2 } ∧
    visitStructFields (.basic .Tcomplex64 sz al fl pod ag) b =
      { fields := [{ ty := some (pointerTo tfloat64), offset := b },
                   { ty := some (pointerTo tfloat64), offset := u32 (b + 8) }],
        length := 2 } ∧
    isFloating (pointerTo tfloat32) = false ∧ size (pointerTo tfloat32) = 8 ∧
    isFloating (pointerTo tfloat64) = false ∧ size (pointerTo tfloat64) = 8 ∧
    pointerTo tfloat32 ≠ tfloat32 ∧ pointerTo tfloat64 ≠ tfloat64 := by
  refine ⟨rfl, rfl, rfl, rfl, rfl, rfl, ?_, ?_⟩ <;> simp [pointerTo, tfloat32, tfloat64]

/-- Claim C6 as stated fails: a fresh `cdouble` parameter (16 bytes, alignment 8) does not get
the Hardfloat rewrite, it gets the Paired-64-bit-Integer rewrite. -/
theorem C6_counterexample :
    (exampleABI.rewriteArgument (freshArg tcomplex64)).rewrite = none ∧
    (toBasetype (freshArg tcomplex64).type).ty = .Tcomplex64 ∧
    (rewriteArgument exampleABI (freshArg tcomplex64) false).map (fun out => out.rewrite) =
      some (some ABIRewrite.integer2Rewrite) := by
  decide

/-- Claim C6 (amended): for every non-vararg parameter whose base type is a 64-bit complex number
and for which the base logic assigned no rewrite, `requireHardfloatRewrite` is false (the base
type is not a struct), `rewriteArgument` does not attach the Hardfloat rewrite and leaves the
argument to the steps after it; when the type is an aggregate of 16 bytes with an alignment below
16, that is the hand-over to `integer2Rewrite`. -/
theorem C6_complex64_not_hardfloat (abi : TargetABI) (arg : IrFuncTyArg)
    (hbase : (abi.rewriteArgument arg).rewrite = none)
    (hty : (toBasetype (abi.rewriteArgument arg).type).ty = .Tcomplex64) :
    requireHardfloatRewrite (abi.rewriteArgument arg).type = some false ∧
    rewriteArgument abi arg false = some (rewriteArgumentTail abi (abi.rewriteArgument arg)) ∧
    (rewriteArgumentTail abi (abi.rewriteArgument arg)).rewrite ≠
      some ABIRewrite.hardfloatRewrite ∧
    (isAggregate (toBasetype (abi.rewriteArgument arg).type) = true →
      size (toBasetype (abi.rewriteArgument arg).type) = 16 →
      DtoAlignment (toBasetype (abi.rewriteArgument arg).type) < 16 →
      rewriteArgumentTail abi (abi.rewriteArgument arg) =
        ABIRewrite.integer2Rewrite.applyToIfNotObsolete abi
          (.LLStructType [.DtoType tint64, .DtoType tint64] false) (abi.rewriteArgument arg)) := by
  have hreq := requireHardfloatRewrite_of_not_struct (abi.rewriteArgument arg).type
    (by rw [hty]; decide)
  refine ⟨hreq, by simp [rewriteArgument, hbase, hreq], ?_, ?_⟩
  · intro h
    rcases rewriteArgumentTail_rewrite abi (abi.rewriteArgument arg) with h1 | h1 | h1 | h1 <;>
      rw [h1] at h <;> simp [hbase] at h
  · intro hagg hsz hal
    simp [rewriteArgumentTail, hty, hagg, hsz, hal, Integer2Rewrite.type]

/-- Witness of the amended claim C6 at a fresh `cdouble` parameter. -/
theorem C6_complex64_not_hardfloat_witness :
    (exampleABI.rewriteArgument (freshArg tcomplex64)).rewrite = none ∧
    (toBasetype (exampleABI.rewriteArgument (freshArg tcomplex64)).type).ty = .Tcomplex64 ∧
    (requireHardfloatRewrite (exampleABI.rewriteArgument (freshArg tcomplex64)).type = some false ∧
      rewriteArgument exampleABI (freshArg tcomplex64) false =
        some (rewriteArgumentTail exampleABI (exampleABI.rewriteArgument (freshArg tcomplex64))) ∧
      (rewriteArgumentTail exampleABI (exampleABI.rewriteArgument (freshArg tcomplex64))).rewrite ≠
        some ABIRewrite.hardfloatRewrite ∧
      (isAggregate (toBasetype (exampleABI.rewriteArgument (freshArg tcomplex64)).type) = true →
        size (toBasetype (exampleABI.rewriteArgument (freshArg tcomplex64)).type) = 16 →
        DtoAlignment (toBasetype (exampleABI.rewriteArgument (freshArg tcomplex64)).type) < 16 →
        rewriteArgumentTail exampleABI (exampleABI.rewriteArgument (freshArg tcomplex64)) =
          ABIRewrite.integer2Rewrite.applyToIfNotObsolete exampleABI
            (.LLStructType [.DtoType tint64, .DtoType tint64] false)
            (exampleABI.rewriteArgument (freshArg tcomplex64)))) :=
  ⟨rfl, rfl, C6_complex64_not_hardfloat exampleABI (freshArg tcomplex64) rfl rfl⟩

/-- Claim C7: for a struct with exactly two fields, each a scalar (non-complex) floating-point
type of at most 8 bytes, at offsets in the range of `unsigned`: `visitStructFields(type, 0)` has
length 2 and holds the two field types at the two field offsets in declaration order,
`HardfloatRewrite::type` is the unpacked record of those two types, and `rewriteArgument`
(non-vararg, no base rewrite) attaches the Hardfloat rewrite with that ABI-facing type. -/
theorem C7_two_float_struct (abi : TargetABI) (arg : IrFuncTyArg)
    (k1 k2 : TY) (s1 s2 a1 a2 : Nat) (p1 p2 g1 g2 : Bool) (o1 o2 sz al : Nat) (pod : Bool)
    (hbase : (abi.rewriteArgument arg).rewrite = none)
    (htype : (abi.rewriteArgument arg).type =
      .struct [(.basic k1 s1 a1 true p1 g1, o1), (.basic k2 s2 a2 true p2 g2, o2)] sz al pod)
    (hk1 : k1 ≠ .Tcomplex32 ∧ k1 ≠ .Tcomplex64) (hk2 : k2 ≠ .Tcomplex32 ∧ k2 ≠ .Tcomplex64)
    (hs1 : s1 ≤ 8) (hs2 : s2 ≤ 8) (ho1 : o1 < 2 ^ 32) (ho2 : o2 < 2 ^ 32) :
    visitStructFields (abi.rewriteArgument arg).type 0 =
      { fields := [{ ty := some (.basic k1 s1 a1 true p1 g1), offset := o1 },
                   { ty := some (.basic k2 s2 a2 true p2 g2), offset := o2 }],
        length := 2 } ∧
    HardfloatRewrite.type (abi.rewriteArgument arg).type =
      some (.LLStructType [.DtoType (.basic k1 s1 a1 true p1 g1),
                           .DtoType (.basic k2 s2 a2 true p2 g2)] false) ∧
    rewriteArgument abi arg false =
      some (ABIRewrite.hardfloatRewrite.applyTo
        (.LLStructType [.DtoType (.basic k1 s1 a1 true p1 g1),
                        .DtoType (.basic k2 s2 a2 true p2 g2)] false)
        (abi.rewriteArgument arg)) := by
  have hv : visitStructFields (abi.rewriteArgument arg).type 0 =
      { fields := [{ ty := some (.basic k1 s1 a1 true p1 g1), offset := o1 },
                   { ty := some (.basic k2 s2 a2 true p2 g2), offset := o2 }],
        length := 2 } := by
    have e1 : ∀ b, visitScalar (.basic k1 s1 a1 true p1 g1) b =
        { fields := [{ ty := some (.basic k1 s1 a1 true p1 g1), offset := b }, {}],
          length := 1 } := by
      intro b
      unfold visitScalar
      split
      · rename_i h; exact absurd h hk1.1
      · rename_i h; exact absurd h hk1.2
      · simp only [size]; rw [if_neg (by omega)]
    have e2 : ∀ b, visitScalar (.basic k2 s2 a2 true p2 g2) b =
        { fields := [{ ty := some (.basic k2 s2 a2 true p2 g2), offset := b }, {}],
          length := 1 } := by
      intro b
      unfold visitScalar
      split
      · rename_i h; exact absurd h hk2.1
      · rename_i h; exact absurd h hk2.2
      · simp only [size]; rw [if_neg (by omega)]
    have u1 : u32 o1 = o1 := Nat.mod_eq_of_lt ho1
    have u2 : u32 o2 = o2 := Nat.mod_eq_of_lt ho2
    rw [htype]
    simp [visitStructFields, visitFields, e1, e2, u1, u2, toUnsigned, copyFields,
      FlattenedFields.get]
  have ht : HardfloatRewrite.type (abi.rewriteArgument arg).type =
      some (.LLStructType [.DtoType (.basic k1 s1 a1 true p1 g1),
                           .DtoType (.basic k2 s2 a2 true p2 g2)] false) := by
    simp [HardfloatRewrite.type, hv, HardfloatRewrite.typeFlat, FlattenedFields.get,
      HardfloatRewrite.elementType, isFloating]
  have hr : requireHardfloatRewrite (abi.rewriteArgument arg).type = some true := by
    unfold requireHardfloatRewrite
    rw [hv]
    simp [htype, toBasetype, isTypeStruct, FlattenedFields.get, FlattenedField.isFloating,
      isFloating]
  exact ⟨hv, ht, by simp [rewriteArgument, hbase, hr, ht]⟩

/-- Witness of claim C7 at a fresh `struct { float; float; }` parameter, fields at offsets 0
and 4. -/
theorem C7_two_float_struct_witness :
    visitStructFields (exampleABI.rewriteArgument (freshArg structFloat2)).type 0 =
      { fields := [{ ty := some (.basic .Tfloat32 4 4 true true false), offset := 0 },
                   { ty := some (.basic .Tfloat32 4 4 true true false), offset := 4 }],
        length := 2 } ∧
    HardfloatRewrite.type (exampleABI.rewriteArgument (freshArg structFloat2)).type =
      some (.LLStructType [.DtoType (.basic .Tfloat32 4 4 true true false),
                           .DtoType (.basic .Tfloat32 4 4 true true false)] false) ∧
    rewriteArgument exampleABI (freshArg structFloat2) false =
      some (ABIRewrite.hardfloatRewrite.applyTo
        (.LLStructType [.DtoType (.basic .Tfloat32 4 4 true true false),
                        .DtoType (.basic .Tfloat32 4 4 true true false)] false)
        (exampleABI.rewriteArgument (freshArg structFloat2))) :=
  C7_two_float_struct exampleABI (freshArg structFloat2) .Tfloat32 .Tfloat32 4 4 4 4
    true true false false 0 4 8 4 true rfl rfl (by decide) (by decide) (by decide) (by decide)
    (by decide) (by decide)

/-- Claim C8: for an argument that reaches the last step (no base rewrite, Hardfloat not
selected, base type not an 80-bit complex), `rewriteArgument` returns; for an aggregate with
`0 < size ≤ 16` the argument is handed to `integer2Rewrite` (ABI type `{i64, i64}`) when
`size > 8` and `alignment < 16` and to `integerRewrite` otherwise, never to the other of the two;
for any other type the argument is left without a rewrite. -/
theorem C8_integer_rewrites (abi : TargetABI) (arg : IrFuncTyArg) (isVararg : Bool)
    (hbase : (abi.rewriteArgument arg).rewrite = none)
    (hhard : isVararg = true ∨ requireHardfloatRewrite (abi.rewriteArgument arg).type = some false)
    (hty : (toBasetype (abi.rewriteArgument arg).type).ty ≠ .Tcomplex80) :
    ∃ out, rewriteArgument abi arg isVararg = some out ∧
      (isAggregate (toBasetype (abi.rewriteArgument arg).type) = true ∧
        0 < size (toBasetype (abi.rewriteArgument arg).type) ∧
        size (toBasetype (abi.rewriteArgument arg).type) ≤ 16 →
        (8 < size (toBasetype (abi.rewriteArgument arg).type) ∧
          DtoAlignment (toBasetype (abi.rewriteArgument arg).type) < 16 →
          out = ABIRewrite.integer2Rewrite.applyToIfNotObsolete abi
            (.LLStructType [.DtoType tint64, .DtoType tint64] false) (abi.rewriteArgument arg) ∧
          out.rewrite ≠ some ABIRewrite.integerRewrite ∧
          (abi.isObsolete .integer2Rewrite (abi.rewriteArgument arg)
              (.LLStructType [.DtoType tint64, .DtoType tint64] false) = false →
            out.rewrite = some ABIRewrite.integer2Rewrite ∧
            out.ltype = .LLStructType [.DtoType tint64, .DtoType tint64] false)) ∧
        (¬ (8 < size (toBasetype (abi.rewriteArgument arg).type) ∧
          DtoAlignment (toBasetype (abi.rewriteArgument arg).type) < 16) →
          out = ABIRewrite.integerRewrite.applyToIfNotObsolete abi
            (abi.integerRewriteType (abi.rewriteArgument arg).type) (abi.rewriteArgument arg) ∧
          out.rewrite ≠ some ABIRewrite.integer2Rewrite ∧
          (abi.isObsolete .integerRewrite (abi.rewriteArgument arg)
              (abi.integerRewriteType (abi.rewriteArgument arg).type) = false →
            out.rewrite = some ABIRewrite.integerRewrite))) ∧
      (¬ (isAggregate (toBasetype (abi.rewriteArgument arg).type) = true ∧
        0 < size (toBasetype (abi.rewriteArgument arg).type) ∧
        size (toBasetype (abi.rewriteArgument arg).type) ≤ 16) →
        out = abi.rewriteArgument arg ∧ out.rewrite = none) := by
  refine ⟨rewriteArgumentTail abi (abi.rewriteArgument arg), ?_, ?_, ?_⟩
  · rcases hhard with h | h
    · simp [rewriteArgument, hbase, h]
    · cases isVararg <;> simp [rewriteArgument, hbase, h]
  · rintro ⟨hagg, hpos, hle⟩
    have hne : size (toBasetype (abi.rewriteArgument arg).type) ≠ 0 := by omega
    constructor
    · rintro ⟨hgt, hal⟩
      have heq : rewriteArgumentTail abi (abi.rewriteArgument arg) =
          ABIRewrite.integer2Rewrite.applyToIfNotObsolete abi
            (.LLStructType [.DtoType tint64, .DtoType tint64] false)
            (abi.rewriteArgument arg) := by
        simp [rewriteArgumentTail, hty, hagg, hne, hle, hgt, hal, Integer2Rewrite.type]
      rw [heq]
      refine ⟨rfl, ?_, ?_⟩
      · unfold ABIRewrite.applyToIfNotObsolete ABIRewrite.applyTo
        split <;> simp [hbase]
      · intro hobs
        simp [ABIRewrite.applyToIfNotObsolete, ABIRewrite.applyTo, hobs]
    · intro hnot
      have heq : rewriteArgumentTail abi (abi.rewriteArgument arg) =
          ABIRewrite.integerRewrite.applyToIfNotObsolete abi
            (abi.integerRewriteType (abi.rewriteArgument arg).type)
            (abi.rewriteArgument arg) := by
        simp only [rewriteArgumentTail, hty, if_false, hagg, hne, hle, bne_iff_ne, ne_eq,
          not_false_eq_true, decide_True, Bool.and_self, if_true, Bool.and_eq_true,
          decide_eq_true_eq]
        rw [if_neg hnot]
        simp
      rw [heq]
      refine ⟨rfl, ?_, ?_⟩
      · unfold ABIRewrite.applyToIfNotObsolete ABIRewrite.applyTo
        split <;> simp [hbase]
      · intro hobs
        simp [ABIRewrite.applyToIfNotObsolete, ABIRewrite.applyTo, hobs]
  · intro hnot
    have heq : rewriteArgumentTail abi (abi.rewriteArgument arg) = abi.rewriteArgument arg := by
      simp only [rewriteArgumentTail, hty, if_false, Bool.and_eq_true, bne_iff_ne, ne_eq,
        decide_eq_true_eq]
      rw [if_neg]
      rintro ⟨⟨h1, h2⟩, h3⟩
      exact hnot ⟨h1, by omega, h3⟩
    rw [heq]
    exact ⟨rfl, hbase⟩

/-- Witness of claim C8 at a fresh `struct { long; long; }` parameter (size 16, alignment 8): it
gets `integer2Rewrite` with ABI type `{i64, i64}`, not `integerRewrite`. -/
theorem C8_integer_rewrites_witness :
    ∃ out, rewriteArgument exampleABI (freshArg structLong2) false = some out ∧
      out.rewrite = some ABIRewrite.integer2Rewrite ∧
      out.rewrite ≠ some ABIRewrite.integerRewrite ∧
      out.ltype = .LLStructType [.DtoType tint64, .DtoType tint64] false := by
  obtain ⟨out, h1, h2, _⟩ := C8_integer_rewrites exampleABI (freshArg structLong2) false rfl
    (Or.inr (by decide)) (by decide)
  obtain ⟨_, hne, hobs⟩ := (h2 ⟨by decide, by decide, by decide⟩).1 ⟨by decide, by decide⟩
  exact ⟨out, h1, (hobs rfl).1, hne, (hobs rfl).2⟩

/-- Claim C9: for every argument, parameter or vararg, whose base type is an 80-bit complex and
for which the base logic assigned no rewrite, `rewriteArgument` returns with the
Indirect-By-Value rewrite attached, whatever the size and alignment of the type. -/
theorem C9_complex80_indirect (abi : TargetABI) (arg : IrFuncTyArg) (isVararg : Bool)
    (hbase : (abi.rewriteArgument arg).rewrite = none)
    (hty : (toBasetype (abi.rewriteArgument arg).type).ty = .Tcomplex80) :
    ∃ out, rewriteArgument abi arg isVararg = some out ∧
      out = ABIRewrite.indirectByvalRewrite.applyTo
        (abi.indirectByvalRewriteType (abi.rewriteArgument arg).type) (abi.rewriteArgument arg) ∧
      out.rewrite = some ABIRewrite.indirectByvalRewrite := by
  have hreq := requireHardfloatRewrite_of_not_struct (abi.rewriteArgument arg).type
    (by rw [hty]; decide)
  refine ⟨_, ?_, rfl, rfl⟩
  cases isVararg <;> simp [rewriteArgument, hbase, hreq, rewriteArgumentTail, hty]

/-- Witness of claim C9 at a fresh `creal` vararg. -/
theorem C9_complex80_indirect_witness :
    ∃ out, rewriteArgument exampleABI (freshArg tcomplex80) true = some out ∧
      out = ABIRewrite.indirectByvalRewrite.applyTo
        (exampleABI.indirectByvalRewriteType (exampleABI.rewriteArgument (freshArg tcomplex80)).type)
        (exampleABI.rewriteArgument (freshArg tcomplex80)) ∧
      out.rewrite = some ABIRewrite.indirectByvalRewrite :=
  C9_complex80_indirect exampleABI (freshArg tcomplex80) true rfl rfl

/-- Claim C10: for every list of vararg descriptors `rewriteVarargs` returns a list of the same
descriptors in which each by-value argument without a base rewrite is the outcome of the steps
after the Hardfloat test and does not carry the Hardfloat rewrite, and each other argument is as
the base logic (or the caller, when byref) left it. -/
theorem C10_varargs_never_hardfloat (abi : TargetABI) (args : List IrFuncTyArg) :
    ∃ outs, rewriteVarargs abi args = some outs ∧ List.Forall₂ (varargOutcome abi) args outs := by
  induction args with
  | nil => exact ⟨[], rfl, List.Forall₂.nil⟩
  | cons arg rest ih =>
    obtain ⟨outs, hrest, hall⟩ := ih
    obtain ⟨out, hout, hsome, hnone⟩ := rewriteArgument_vararg abi arg
    cases hby : arg.byref with
    | true =>
      refine ⟨arg :: outs, by simp [rewriteVarargs, hby, hrest], List.Forall₂.cons ?_ hall⟩
      refine ⟨fun _ => rfl, fun h => ?_, fun h => ?_⟩
      · rw [hby] at h; cases h
      · rw [hby] at h; cases h
    | false =>
      refine ⟨out :: outs, by simp [rewriteVarargs, hby, hout, hrest], List.Forall₂.cons ?_ hall⟩
      refine ⟨fun h => ?_, fun _ => hsome, fun _ => hnone⟩
      rw [hby] at h; cases h

/-- Witness of claim C10 at a fresh by-value `struct { float; float; }` vararg, a type that
`requireHardfloatRewrite` accepts: it gets `integerRewrite`. -/
theorem C10_varargs_never_hardfloat_witness :
    requireHardfloatRewrite structFloat2 = some true ∧
    ∃ outs, rewriteVarargs exampleABI [freshArg structFloat2] = some outs ∧
      List.Forall₂ (varargOutcome exampleABI) [freshArg structFloat2] outs ∧
      outs.map (fun out => out.rewrite) = [some ABIRewrite.integerRewrite] := by
  obtain ⟨outs, h1, h2⟩ := C10_varargs_never_hardfloat exampleABI [freshArg structFloat2]
  refine ⟨by decide, outs, h1, h2, ?_⟩
  have h3 : (rewriteVarargs exampleABI [freshArg structFloat2]).map
      (fun outs => outs.map (fun out => out.rewrite)) =
      some [some ABIRewrite.integerRewrite] := by decide
  rw [h1] at h3
  simpa using h3

/-- Claim C11: `returnInArg` is true exactly when the base type of the return type is not POD or
is larger than 16 bytes; so it is true for every return type larger than 16 bytes and for every
non-POD one, and false for every POD type of at most 16 bytes. -/
theorem C11_returnInArg_iff (tf : TypeFunction) (needsThis : Bool) :
    (returnInArg tf needsThis = true ↔
      (isPOD (toBasetype tf.next) = false ∨ 16 < size (toBasetype tf.next))) ∧
    (16 < size (toBasetype tf.next) → returnInArg tf needsThis = true) ∧
    (isPOD (toBasetype tf.next) = false → returnInArg tf needsThis = true) ∧
    (isPOD (toBasetype tf.next) = true → size (toBasetype tf.next) ≤ 16 →
      returnInArg tf needsThis = false) := by
  unfold returnInArg
  cases hp : isPOD (toBasetype tf.next)
  · simp [hp]
  · by_cases hs : 16 < size (toBasetype tf.next)
    · simp [hp, hs]
    · have hle : size (toBasetype tf.next) ≤ 16 := by omega
      simp [hp, hs, hle]

/-- Claim C12: `passByVal(t)` is true exactly when the base type of `t` is not an 80-bit complex,
is POD and is larger than 16 bytes; for an 80-bit complex base type it is false whatever the
POD-ness and the size. -/
theorem C12_passByVal_iff (tf : TypeFunction) (t : DType) :
    (passByVal tf t = true ↔
      ((toBasetype t).ty ≠ .Tcomplex80 ∧ isPOD (toBasetype t) = true ∧
        16 < size (toBasetype t))) ∧
    ((toBasetype t).ty = .Tcomplex80 → passByVal tf t = false) := by
  unfold passByVal
  by_cases hc : (toBasetype t).ty = .Tcomplex80
  · simp [hc]
  · simp [hc]

/-- Claim C13 as stated fails: a struct that is not POD (8 bytes, with a destructor) has
`passByVal` false, and so has a non-POD struct of any size. -/
theorem C13_counterexample :
    (isTypeStruct (toBasetype structNonPOD)).isSome = true ∧ isPOD structNonPOD = false ∧
      passByVal voidFunction structNonPOD = false := by
  decide

/-- Claim C13 (amended): for every struct type passed by value, `passByVal` reports true exactly
when the struct is POD and larger than 16 bytes; for a non-POD struct of any size it reports
false. -/
theorem C13_passByVal_struct (tf : TypeFunction) (t : DType)
    (hstruct : (isTypeStruct (toBasetype t)).isSome = true) :
    (passByVal tf t = true ↔ (isPOD (toBasetype t) = true ∧ 16 < size (toBasetype t))) ∧
    (isPOD (toBasetype t) = true → 16 < size (toBasetype t) → passByVal tf t = true) ∧
    (isPOD (toBasetype t) = false → passByVal tf t = false) := by
  have hty : (toBasetype t).ty ≠ .Tcomplex80 := by
    intro h
    have := isTypeStruct_of_ty (toBasetype t) (by rw [h]; decide)
    rw [this] at hstruct
    cases hstruct
  unfold passByVal
  simp only [hty, if_false]
  cases hp : isPOD (toBasetype t) <;> simp [hp]

/-- Witness of the amended claim C13 at `struct { align(32) float f; }`, a POD struct of 32
bytes. -/
theorem C13_passByVal_struct_witness :
    (passByVal voidFunction structAlignedFloat = true ↔
      (isPOD (toBasetype structAlignedFloat) = true ∧ 16 < size (toBasetype structAlignedFloat))) ∧
    (isPOD (toBasetype structAlignedFloat) = true → 16 < size (toBasetype structAlignedFloat) →
      passByVal voidFunction structAlignedFloat = true) ∧
    (isPOD (toBasetype structAlignedFloat) = false →
      passByVal voidFunction structAlignedFloat = false) :=
  C13_passByVal_struct voidFunction structAlignedFloat (by decide)

/-- Claim C14 as stated fails: `struct { align(32) float f; }` has size 32, the base logic
assigned no rewrite, and `rewriteArgument` attaches the Hardfloat rewrite to the parameter. -/
theorem C14_counterexample :
    (isTypeStruct (toBasetype (freshArg structAlignedFloat).type)).isSome = true ∧
    16 < size (freshArg structAlignedFloat).type ∧
    (exampleABI.rewriteArgument (freshArg structAlignedFloat)).rewrite = none ∧
    (rewriteArgument exampleABI (freshArg structAlignedFloat) false).map (fun out => out.rewrite) =
      some (some ABIRewrite.hardfloatRewrite) := by
  decide

/-- Claim C14 (amended): for every struct type larger than 16 bytes for which the base logic
assigned no rewrite, `rewriteArgument` returns and attaches neither Indirect-By-Value nor an
integer rewrite; the argument carries the Hardfloat rewrite exactly when it is not a vararg and
`requireHardfloatRewrite` accepts the type, and otherwise it leaves as the base logic left it,
with no rewrite. -/
theorem C14_large_struct (abi : TargetABI) (arg : IrFuncTyArg) (isVararg : Bool)
    (hbase : (abi.rewriteArgument arg).rewrite = none)
    (hstruct : (isTypeStruct (toBasetype (abi.rewriteArgument arg).type)).isSome = true)
    (hsize : 16 < size (toBasetype (abi.rewriteArgument arg).type)) :
    ∃ out, rewriteArgument abi arg isVararg = some out ∧
      (out.rewrite = some ABIRewrite.hardfloatRewrite ↔
        (isVararg = false ∧ HardfloatCondition (abi.rewriteArgument arg).type)) ∧
      (¬ (isVararg = false ∧ HardfloatCondition (abi.rewriteArgument arg).type) →
        out = abi.rewriteArgument arg ∧ out.rewrite = none) := by
  have hty : (toBasetype (abi.rewriteArgument arg).type).ty ≠ .Tcomplex80 := by
    intro h
    have := isTypeStruct_of_ty (toBasetype (abi.rewriteArgument arg).type) (by rw [h]; decide)
    rw [this] at hstruct
    cases hstruct
  have htail : rewriteArgumentTail abi (abi.rewriteArgument arg) = abi.rewriteArgument arg := by
    have hn : ¬ size (toBasetype (abi.rewriteArgument arg).type) ≤ 16 := by omega
    simp [rewriteArgumentTail, hty, hn]
  obtain ⟨b, hb, hiff⟩ := requireHardfloatRewrite_spec (abi.rewriteArgument arg).type
  cases isVararg with
  | true =>
    refine ⟨abi.rewriteArgument arg, by simp [rewriteArgument, hbase, htail], ?_, ?_⟩
    · simp [hbase]
    · intro _
      exact ⟨rfl, hbase⟩
  | false =>
    cases b with
    | true =>
      have hc := hiff.mp rfl
      obtain ⟨asType, hasType⟩ := type_isSome_of_condition _ hc
      refine ⟨ABIRewrite.hardfloatRewrite.applyTo asType (abi.rewriteArgument arg),
        by simp [rewriteArgument, hbase, hb, hasType], ?_, ?_⟩
      · simp [ABIRewrite.applyTo, hc]
      · intro hn
        exact absurd ⟨rfl, hc⟩ hn
    | false =>
      have hc : ¬ HardfloatCondition (abi.rewriteArgument arg).type := fun h => by
        have := hiff.mpr h
        cases this
      refine ⟨abi.rewriteArgument arg, by simp [rewriteArgument, hbase, hb, htail], ?_, ?_⟩
      · simp [hbase, hc]
      · intro _
        exact ⟨rfl, hbase⟩

/-- Witness of the amended claim C14 at a fresh `struct { align(32) float f; }` vararg: it
leaves without a rewrite. -/
theorem C14_large_struct_witness :
    ∃ out, rewriteArgument exampleABI (freshArg structAlignedFloat) true = some out ∧
      out.rewrite = none := by
  obtain ⟨out, h1, _, h3⟩ := C14_large_struct exampleABI (freshArg structAlignedFloat) true rfl
    (by decide) (by decide)
  exact ⟨out, h1, (h3 (fun h => by cases h.1)).2⟩

/-- Claim C15: for every type accepted by `requireHardfloatRewrite`, `HardfloatRewrite::type`
returns (its assertion holds) an unpacked record with as many elements as
`visitStructFields(type, 0)` has slots, 1 or 2, and element `i` is `DtoType` of slot `i`'s type
when that type is floating point and the integer type of `8 * size` bits otherwise. -/
theorem C15_type_shape (ty : DType) (hreq : requireHardfloatRewrite ty = some true) :
    ∃ elements, HardfloatRewrite.type ty = some (.LLStructType elements false) ∧
      (elements.length : Int) = (visitStructFields ty 0).length ∧
      ((visitStructFields ty 0).length = 1 ∨ (visitStructFields ty 0).length = 2) ∧
      ∀ (i : Nat) (t : DType), (i : Int) < (visitStructFields ty 0).length →
        ((visitStructFields ty 0).get i).ty = some t →
        elements.get? i =
          some (if isFloating t = true then .DtoType t else .LLIntegerType (size t * 8)) := by
  obtain ⟨_, hl, j, tj, hj, htj, hfl⟩ := condition_of_require ty hreq
  rcases visitStructFields_slots ty 0 with hneg | ⟨a, b, hf, hs⟩
  · omega
  · rcases hs with h0 | ⟨h1, t, ht, _⟩ | ⟨h2, t, u, ht, hu, _, _⟩
    · omega
    · have hj0 : j = 0 := by omega
      subst hj0
      simp only [FlattenedFields.get, hf, List.getD_cons_zero] at htj
      rw [ht] at htj
      cases htj
      refine ⟨[.DtoType tj], ?_, by simp [h1], Or.inl h1, ?_⟩
      · simp [HardfloatRewrite.type, HardfloatRewrite.typeFlat, h1, FlattenedFields.get, hf, ht]
      · intro i t' hi hty
        have hi0 : i = 0 := by omega
        subst hi0
        simp only [FlattenedFields.get, hf, List.getD_cons_zero] at hty
        rw [ht] at hty
        cases hty
        simp [hfl]
    · refine ⟨[if isFloating t = true then .DtoType t else .LLIntegerType (size t * 8),
          if isFloating u = true then .DtoType u else .LLIntegerType (size u * 8)],
        ?_, by simp [h2], Or.inr h2, ?_⟩
      · simp [HardfloatRewrite.type, HardfloatRewrite.typeFlat, h2, FlattenedFields.get, hf, ht,
          hu, HardfloatRewrite.elementType]
      · intro i t' hi hty
        have hi01 : i = 0 ∨ i = 1 := by omega
        rcases hi01 with rfl | rfl
        · simp only [FlattenedFields.get, hf, List.getD_cons_zero] at hty
          rw [ht] at hty
          cases hty
          simp
        · simp only [FlattenedFields.get, hf, List.getD_cons_succ, List.getD_cons_zero] at hty
          rw [hu] at hty
          cases hty
          simp

/-- Witness of claim C15 at `union { float f; int i; }`: the record of `float` and `i32`. -/
theorem C15_type_shape_witness :
    ∃ elements, HardfloatRewrite.type unionFloatInt = some (.LLStructType elements false) ∧
      elements.get? 0 = some (.DtoType tfloat32) ∧
      elements.get? 1 = some (.LLIntegerType 32) := by
  obtain ⟨elements, h1, _, _, h4⟩ := C15_type_shape unionFloatInt (by decide)
  exact ⟨elements, h1, h4 0 tfloat32 (by decide) rfl, h4 1 tint32 (by decide) rfl⟩

/-- Claim C16: for every type and base offset, when `visitStructFields` returns length 1 or 2,
every returned slot has a non-null type of at most 8 bytes, and the sizes of the returned slots
add up to at most 16 bytes. -/
theorem C16_slot_sizes (ty : DType) (baseOffset : Nat)
    (hlen : (visitStructFields ty baseOffset).length = 1 ∨
      (visitStructFields ty baseOffset).length = 2) :
    (∀ i : Nat, (i : Int) < (visitStructFields ty baseOffset).length →
      ∃ t, ((visitStructFields ty baseOffset).get i).ty = some t ∧ size t ≤ 8) ∧
    (((List.range (visitStructFields ty baseOffset).length.toNat).map fun i =>
      (((visitStructFields ty baseOffset).get i).size).getD 0).sum ≤ 16) := by
  rcases visitStructFields_slots ty baseOffset with hneg | ⟨a, b, hf, hs⟩
  · omega
  · rcases hs with h0 | ⟨h1, t, ht, hts⟩ | ⟨h2, t, u, ht, hu, hts, hus⟩
    · omega
    · constructor
      · intro i hi
        have hi0 : i = 0 := by omega
        subst hi0
        exact ⟨t, by simp [FlattenedFields.get, hf, ht], hts⟩
      · simp [h1, FlattenedFields.get, hf, FlattenedField.size, ht, List.range_succ]
        omega
    · constructor
      · intro i hi
        have hi01 : i = 0 ∨ i = 1 := by omega
        rcases hi01 with rfl | rfl
        · exact ⟨t, by simp [FlattenedFields.get, hf, ht], hts⟩
        · exact ⟨u, by simp [FlattenedFields.get, hf, hu], hus⟩
      · simp [h2, FlattenedFields.get, hf, FlattenedField.size, ht, hu, List.range_succ]
        omega

/-- Witness of claim C16 at the 64-bit complex type and base offset 0. -/
theorem C16_slot_sizes_witness :
    (∀ i : Nat, (i : Int) < (visitStructFields tcomplex64 0).length →
      ∃ t, ((visitStructFields tcomplex64 0).get i).ty = some t ∧ size t ≤ 8) ∧
    (((List.range (visitStructFields tcomplex64 0).length.toNat).map fun i =>
      (((visitStructFields tcomplex64 0).get i).size).getD 0).sum ≤ 16) :=
  C16_slot_sizes tcomplex64 0 (by decide)

/-- Claim C17: for every type and base offset, the outcome of `visitStructFields` is the
reference flattening (the leaves in declaration order through nested structs, two per 32-bit or
64-bit complex, typed as the flattener types them; unsupported when a non-complex leaf exceeds 8
bytes or there are more than 2 leaves; otherwise exactly the leaves); a type without leaves, such
as a struct without fields, yields length 0. -/
theorem C17_refines_reference (ty : DType) (baseOffset : Nat) :
    outcome (visitStructFields ty baseOffset) =
      referenceFlatten (pointerTo tfloat32) (pointerTo tfloat64) ty baseOffset ∧
    (referenceLeaves (pointerTo tfloat32) (pointerTo tfloat64) ty baseOffset = [] →
      (visitStructFields ty baseOffset).length = 0) ∧
    (∀ (sz al : Nat) (pod : Bool),
      (visitStructFields (.struct [] sz al pod) baseOffset).length = 0) := by
  obtain ⟨ha, hb⟩ := visitStructFields_reference ty baseOffset
  refine ⟨?_, ?_, ?_⟩
  · unfold referenceFlatten
    by_cases hgood : leavesAtMost8 ty = true ∧
        (referenceLeaves (pointerTo tfloat32) (pointerTo tfloat64) ty baseOffset).length ≤ 2
    · have hn : ¬ (leavesAtMost8 ty = false ∨
          (referenceLeaves (pointerTo tfloat32) (pointerTo tfloat64) ty baseOffset).length > 2) := by
        rintro (h | h)
        · rw [hgood.1] at h
          cases h
        · omega
      rw [if_neg hn]
      exact holds_slots _ _ (ha hgood)
    · have hp : leavesAtMost8 ty = false ∨
          (referenceLeaves (pointerTo tfloat32) (pointerTo tfloat64) ty baseOffset).length > 2 := by
        by_cases h8 : leavesAtMost8 ty = true
        · right
          by_contra hle
          exact hgood ⟨h8, by omega⟩
        · left
          simpa using h8
      rw [if_pos hp]
      simp [outcome, hb hgood]
  · intro hnil
    have h := (ha ⟨leavesAtMost8_of_no_leaves ty baseOffset hnil, by simp [hnil]⟩).1
    rw [h, hnil]
    rfl
  · intro sz al pod
    rfl

/-- Witness of claim C17 at `struct { struct {} e; float f; }` and base offset 0: the empty
struct contributes no leaf and the outcome is the single `float` leaf at offset 4. -/
theorem C17_refines_reference_witness :
    outcome (visitStructFields structEmptyFloat 0) =
      .slots [{ ty := some tfloat32, offset := 4 }] ∧
    (visitStructFields (.struct [] 1 1 true) 0).length = 0 :=
  ⟨(C17_refines_reference structEmptyFloat 0).1.trans rfl,
    (C17_refines_reference structEmptyFloat 0).2.2 1 1 true⟩

/-- Claim C18: `rewriteArgument`, for either value of `isVararg`, returns; when the base logic
has assigned a rewrite the argument comes back exactly as the base logic left it (same rewrite
record, same ABI-facing type); otherwise the result is the argument untouched or the outcome of
a single strategy application: Hardfloat, Indirect-By-Value, Integer2 or Integer. -/
theorem C18_single_strategy (abi : TargetABI) (arg : IrFuncTyArg) (isVararg : Bool) :
    ∃ out, rewriteArgument abi arg isVararg = some out ∧
      ((abi.rewriteArgument arg).rewrite ≠ none →
        out = abi.rewriteArgument arg ∧ out.rewrite = (abi.rewriteArgument arg).rewrite ∧
          out.ltype = (abi.rewriteArgument arg).ltype) ∧
      ((abi.rewriteArgument arg).rewrite = none →
        out = abi.rewriteArgument arg ∨
        (∃ finalLType, HardfloatRewrite.type (abi.rewriteArgument arg).type = some finalLType ∧
          out = ABIRewrite.hardfloatRewrite.applyTo finalLType (abi.rewriteArgument arg)) ∨
        out = ABIRewrite.indirectByvalRewrite.applyTo
          (abi.indirectByvalRewriteType (abi.rewriteArgument arg).type)
          (abi.rewriteArgument arg) ∨
        out = ABIRewrite.integer2Rewrite.applyToIfNotObsolete abi
          (Integer2Rewrite.type (abi.rewriteArgument arg).type) (abi.rewriteArgument arg) ∨
        out = ABIRewrite.integerRewrite.applyToIfNotObsolete abi
          (abi.integerRewriteType (abi.rewriteArgument arg).type) (abi.rewriteArgument arg)) := by
  cases hb : (abi.rewriteArgument arg).rewrite with
  | some r =>
    refine ⟨abi.rewriteArgument arg, by simp [rewriteArgument, hb], fun _ => ⟨rfl, hb, rfl⟩,
      fun h => by cases h⟩
  | none =>
    have htail := rewriteArgumentTail_cases abi (abi.rewriteArgument arg)
    have hvar : ∃ out, rewriteArgument abi arg true = some out ∧
        out = rewriteArgumentTail abi (abi.rewriteArgument arg) :=
      ⟨_, by simp [rewriteArgument, hb], rfl⟩
    cases isVararg with
    | true =>
      obtain ⟨out, hout, heq⟩ := hvar
      refine ⟨out, hout, fun h => absurd rfl h, fun _ => ?_⟩
      rw [heq]
      rcases htail with h | h | h | h
      · exact Or.inl h
      · exact Or.inr (Or.inr (Or.inl h))
      · exact Or.inr (Or.inr (Or.inr (Or.inl h)))
      · exact Or.inr (Or.inr (Or.inr (Or.inr h)))
    | false =>
      obtain ⟨b, hreq, hiff⟩ := requireHardfloatRewrite_spec (abi.rewriteArgument arg).type
      cases b with
      | true =>
        obtain ⟨asType, hty⟩ := type_isSome_of_condition _ (hiff.mp rfl)
        exact ⟨ABIRewrite.hardfloatRewrite.applyTo asType (abi.rewriteArgument arg),
          by simp [rewriteArgument, hb, hreq, hty], fun h => absurd rfl h,
          fun _ => Or.inr (Or.inl ⟨asType, hty, rfl⟩)⟩
      | false =>
        refine ⟨rewriteArgumentTail abi (abi.rewriteArgument arg),
          by simp [rewriteArgument, hb, hreq], fun h => absurd rfl h, fun _ => ?_⟩
        rcases htail with h | h | h | h
        · exact Or.inl h
        · exact Or.inr (Or.inr (Or.inl h))
        · exact Or.inr (Or.inr (Or.inr (Or.inl h)))
        · exact Or.inr (Or.inr (Or.inr (Or.inr h)))

/-- Witness of claim C18 at a `struct { float; float; }` parameter that the base logic has
already rewritten: it keeps the base rewrite and its ABI-facing type although the type qualifies
for the Hardfloat rewrite. -/
theorem C18_single_strategy_witness :
    requireHardfloatRewrite structFloat2 = some true ∧
    ∃ out, rewriteArgument exampleBaseABI (freshArg structFloat2) false = some out ∧
      out.rewrite = some (ABIRewrite.other 0) ∧ out.ltype = .LLPointerType := by
  obtain ⟨out, h1, h2, _⟩ := C18_single_strategy exampleBaseABI (freshArg structFloat2) false
  obtain ⟨_, hr, hl⟩ := h2 (by decide)
  exact ⟨by decide, out, h1, hr, hl⟩

/-- Claim C19: for every type and base offset, the flattener with every array access checked
returns the result of `visitStructFields` (no read or write falls outside the two-element array,
and the loop bound is never taken of a negative length), and the returned length is one of
-1, 0, 1, 2. -/
theorem C19_indices_in_bounds (ty : DType) (baseOffset : Nat) :
    visitStructFieldsChecked ty baseOffset = some (visitStructFields ty baseOffset) ∧
    ((visitStructFields ty baseOffset).length = -1 ∨ (visitStructFields ty baseOffset).length = 0 ∨
      (visitStructFields ty baseOffset).length = 1 ∨
      (visitStructFields ty baseOffset).length = 2) := by
  refine ⟨visitStructFieldsChecked_eq ty baseOffset, ?_⟩
  rcases visitStructFields_slots ty baseOffset with hneg | ⟨_, _, _, hl⟩
  · exact Or.inl hneg
  · omega

/-- Claim C20: for every type accepted by `requireHardfloatRewrite` whose layout is well formed,
`HardfloatRewrite::type` is a record such that, for every slot `i` of `visitStructFields(type, 0)`,
the slot's byte range ends within the value (`offset + size ≤ size(type)`) and the slot's size
is at most the store size of element `i` of the record. -/
theorem C20_copies_in_bounds (ty : DType) (hreq : requireHardfloatRewrite ty = some true)
    (hwf : wellFormed ty = true) :
    ∃ elements, HardfloatRewrite.type ty = some (.LLStructType elements false) ∧
      ∀ (i : Nat) (t : DType), (i : Int) < (visitStructFields ty 0).length →
        ((visitStructFields ty 0).get i).ty = some t →
        ((visitStructFields ty 0).get i).offset + size t ≤ size ty ∧
        ∃ e, elements.get? i = some e ∧ size t ≤ elementStoreSize e := by
  obtain ⟨_, hl, j, tj, hj, htj, hfl⟩ := condition_of_require ty hreq
  obtain ⟨ha, hb⟩ := visitStructFields_reference ty 0
  have hgood : leavesAtMost8 ty = true ∧
      (referenceLeaves (pointerTo tfloat32) (pointerTo tfloat64) ty 0).length ≤ 2 := by
    by_contra h
    have := hb h
    omega
  have hH := ha hgood
  have hB := referenceLeaves_bounded ty 0 hwf
  rw [Nat.zero_add] at hB
  generalize referenceLeaves (pointerTo tfloat32) (pointerTo tfloat64) ty 0 = L at hH hB
  obtain ⟨hlen, _, hfields⟩ := hH
  rcases L with _ | ⟨x, _ | ⟨y, _ | ⟨z, L⟩⟩⟩
  · simp at hlen
    omega
  · simp only [List.length_singleton, Nat.cast_one] at hlen
    simp only [List.length_singleton, List.singleton_append] at hfields
    have hj0 : j = 0 := by omega
    subst hj0
    simp only [FlattenedFields.get, hfields, List.getD_cons_zero] at htj
    obtain ⟨t0, ht0, hle0⟩ := within_of_bounded_one x (size ty) tj htj hfl hB
    rw [htj] at ht0
    cases ht0
    refine ⟨[.DtoType tj], ?_, ?_⟩
    · simp [HardfloatRewrite.type, HardfloatRewrite.typeFlat, hlen, FlattenedFields.get,
        hfields, htj]
    · intro i t hi hty
      have hi0 : i = 0 := by omega
      subst hi0
      simp only [FlattenedFields.get, hfields, List.getD_cons_zero] at hty ⊢
      rw [htj] at hty
      cases hty
      exact ⟨hle0, _, rfl, by simp [elementStoreSize]⟩
  · simp only [List.length_cons, List.length_nil] at hlen
    simp only [List.length_cons, List.length_nil, List.cons_append, List.nil_append] at hfields
    have hlen2 : (visitStructFields ty 0).length = 2 := by
      rw [hlen]
      rfl
    have hfl2 : x.ty = some tj ∨ y.ty = some tj := by
      have hj01 : j = 0 ∨ j = 1 := by omega
      rcases hj01 with rfl | rfl
      · left
        simpa [FlattenedFields.get, hfields] using htj
      · right
        simpa [FlattenedFields.get, hfields] using htj
    obtain ⟨⟨t0, ht0, hle0⟩, ⟨t1, ht1, hle1⟩⟩ :=
      within_of_bounded_two x y (size ty) tj hfl2 hfl hB
    refine ⟨[if isFloating t0 = true then .DtoType t0 else .LLIntegerType (size t0 * 8),
        if isFloating t1 = true then .DtoType t1 else .LLIntegerType (size t1 * 8)], ?_, ?_⟩
    · simp [HardfloatRewrite.type, HardfloatRewrite.typeFlat, hlen2, FlattenedFields.get,
        hfields, ht0, ht1, HardfloatRewrite.elementType]
    · intro i t hi hty
      have hi01 : i = 0 ∨ i = 1 := by omega
      rcases hi01 with rfl | rfl
      · simp only [FlattenedFields.get, hfields, List.getD_cons_zero] at hty ⊢
        rw [ht0] at hty
        cases hty
        exact ⟨hle0, _, rfl, by rw [elementStoreSize_element]⟩
      · simp only [FlattenedFields.get, hfields, List.getD_cons_succ,
          List.getD_cons_zero] at hty ⊢
        rw [ht1] at hty
        cases hty
        exact ⟨hle1, _, rfl, by rw [elementStoreSize_element]⟩
  · simp only [List.length_cons] at hlen
    omega

/-- Witness of claim C20 at `struct { double d; float f; }`: both copies stay within the 16
bytes of the value and within their elements. -/
theorem C20_copies_in_bounds_witness :
    requireHardfloatRewrite structDoubleFloat = some true ∧
    wellFormed structDoubleFloat = true ∧
    ∃ elements, HardfloatRewrite.type structDoubleFloat = some (.LLStructType elements false) ∧
      ∀ (i : Nat) (t : DType), (i : Int) < (visitStructFields structDoubleFloat 0).length →
        ((visitStructFields structDoubleFloat 0).get i).ty = some t →
        ((visitStructFields structDoubleFloat 0).get i).offset + size t ≤ size structDoubleFloat ∧
        ∃ e, elements.get? i = some e ∧ size t ≤ elementStoreSize e :=
  ⟨by decide, by decide, C20_copies_in_bounds structDoubleFloat (by decide) (by decide)⟩

end RISCV64
